import Mathlib

/-!
Shallow embedding, in exact-real semantics, of the conjunction-screening
core of the DuoShield repository:

* `backend/probability.py` — encounter-plane construction, the regularized
  closed-form 2D collision probability, the Mahalanobis diagnostic, the
  hard-body-radius heuristic, the safety classification and the maneuver
  advisory generator;
* `backend-only/orbit.py`  — the time-grid conjunction scan
  `screen_conjunctions`.

Floating-point numbers are modelled as real numbers (`ℝ`); the float value
`inf` (used by the scan for failed samples) is modelled as `⊤ : WithTop ℝ`,
and the float `nan` recorded for a failed sample's relative speed is
modelled as `none : Option ℝ`.  Python exceptions are modelled with
`Except Unit`; the SGP4 propagation collaborator and `Satrec.twoline2rv`
are external to the core and are passed in as oracle functions.
`datetime` instants are modelled as rational numbers of seconds (the scan
only ever adds integer second offsets to the invocation instant, and
`isoformat` is injective on instants).
-/

/-- A 3-vector of reals (numpy `array([x, y, z])`, position in km or
velocity in km/s). -/
structure V3 where
  x : ℝ
  y : ℝ
  z : ℝ

instance : Sub V3 := ⟨fun a b => ⟨a.x - b.x, a.y - b.y, a.z - b.z⟩⟩

/-- The zero vector. -/
def V3.zero : V3 := ⟨0, 0, 0⟩

/-- `np.dot` for 3-vectors. -/
noncomputable def dot3 (a b : V3) : ℝ := a.x * b.x + a.y * b.y + a.z * b.z

/-- `np.cross` for 3-vectors. -/
noncomputable def cross3 (a b : V3) : V3 :=
  ⟨a.y * b.z - a.z * b.y, a.z * b.x - a.x * b.z, a.x * b.y - a.y * b.x⟩

/-- `np.linalg.norm` for 3-vectors. -/
noncomputable def norm3 (a : V3) : ℝ := Real.sqrt (dot3 a a)

/-- Division of a vector by a scalar (numpy `v / c`, componentwise). -/
noncomputable def vdiv (a : V3) (c : ℝ) : V3 := ⟨a.x / c, a.y / c, a.z / c⟩

/-- A 2×2 real matrix (the encounter-plane covariance `P_2d`). -/
structure Mat2 where
  m00 : ℝ
  m01 : ℝ
  m10 : ℝ
  m11 : ℝ

/-- Trace of a 2×2 matrix. -/
noncomputable def tr2 (P : Mat2) : ℝ := P.m00 + P.m11

/-- Determinant of a 2×2 matrix (`np.linalg.det`). -/
noncomputable def det2 (P : Mat2) : ℝ := P.m00 * P.m11 - P.m01 * P.m10

/-- Discriminant of the characteristic polynomial of a 2×2 matrix.  The
eigenvalues returned by `np.linalg.eigvals` are real iff this is
nonnegative; otherwise they are complex and the comparison
`eigenvals <= 0` in the source raises, landing in the local handler. -/
noncomputable def eigDisc (P : Mat2) : ℝ := tr2 P ^ 2 - 4 * det2 P

/-- A symmetric-positive-semidefinite-intended 3×3 matrix: the position
block `P_rel[:3, :3]` of the relative covariance.  (The velocity block of
the 6×6 matrix built in the source is never read afterwards, so only the
position block is modelled.) -/
structure Mat3 where
  a00 : ℝ
  a01 : ℝ
  a02 : ℝ
  a10 : ℝ
  a11 : ℝ
  a12 : ℝ
  a20 : ℝ
  a21 : ℝ
  a22 : ℝ

/-- The all-zero 3×3 matrix. -/
def Mat3.zeroM : Mat3 := ⟨0, 0, 0, 0, 0, 0, 0, 0, 0⟩

/-- Diagonal 3×3 matrix with a constant diagonal (`np.diag` of equal
variances). -/
noncomputable def Mat3.diagC (c : ℝ) : Mat3 := ⟨c, 0, 0, 0, c, 0, 0, 0, c⟩

/-- The bilinear form `aᵀ M b` for 3-vectors; entry `(i, j)` of
`E @ M @ E.T` is `quad3 M (row i of E) (row j of E)`. -/
noncomputable def quad3 (M : Mat3) (a b : V3) : ℝ :=
  a.x * (M.a00 * b.x + M.a01 * b.y + M.a02 * b.z) +
  a.y * (M.a10 * b.x + M.a11 * b.y + M.a12 * b.z) +
  a.z * (M.a20 * b.x + M.a21 * b.y + M.a22 * b.z)

/-! ## probability.py: encounter plane (`compute_encounter_plane`) -/

/-- Direction of relative motion: `u_hat = v_rel / np.linalg.norm(v_rel)`
(probability.py line 24). -/
noncomputable def uHat (v_rel : V3) : V3 := vdiv v_rel (norm3 v_rel)

/-- The unnormalized first basis vector: cross product of `u_hat` with the
reference axis, which is the Z-axis when `|u_hat[2]| < 0.9` and the X-axis
otherwise (probability.py lines 28–31). -/
noncomputable def e1Raw (v_rel : V3) : V3 :=
  let u := uHat v_rel
  if |u.z| < 0.9 then cross3 u ⟨0, 0, 1⟩ else cross3 u ⟨1, 0, 0⟩

/-- First encounter-plane basis vector, normalized (probability.py line 32). -/
noncomputable def e1Vec (v_rel : V3) : V3 := vdiv (e1Raw v_rel) (norm3 (e1Raw v_rel))

/-- Second encounter-plane basis vector: `u × e1`, normalized
(probability.py lines 35–36). -/
noncomputable def e2Vec (v_rel : V3) : V3 :=
  let w := cross3 (uHat v_rel) (e1Vec v_rel)
  vdiv w (norm3 w)

/-- `compute_encounter_plane(r_rel, v_rel)` (probability.py lines 11–38).
The positional argument `r_rel` is accepted and ignored, exactly as in the
source. -/
noncomputable def compute_encounter_plane (_r_rel v_rel : V3) : V3 × V3 × V3 :=
  (uHat v_rel, e1Vec v_rel, e2Vec v_rel)

/-- `project_to_encounter_plane(r_rel, e1, e2)` (probability.py lines 40–51). -/
noncomputable def project_to_encounter_plane (r_rel e1 e2 : V3) : ℝ × ℝ :=
  (dot3 e1 r_rel, dot3 e2 r_rel)

/-! ## probability.py: 2D collision probability
(`compute_2d_collision_probability`) -/

/-- The covariance actually used after the positive-definiteness check:
when some eigenvalue of `P_2d` is `≤ 0` the source adds `1e-6 · I`
(probability.py lines 70–73).  For real eigenvalues (`0 ≤ eigDisc P`) the
condition `np.any(eigenvals <= 0)` is equivalent to
`tr2 P ≤ 0 ∨ det2 P ≤ 0`. -/
noncomputable def regularize2 (P : Mat2) : Mat2 :=
  if tr2 P ≤ 0 ∨ det2 P ≤ 0 then ⟨P.m00 + 1e-6, P.m01, P.m10, P.m11 + 1e-6⟩ else P

/-- `np.linalg.cholesky` succeeds on the 2×2 matrix `Q` (reading its lower
triangle) iff `0 < Q[0,0]` and `0 < Q[1,1] - Q[1,0]² / Q[0,0]`; on failure
it raises, landing in the local handler of the source. -/
def cholOk (Q : Mat2) : Prop := 0 < Q.m00 ∧ 0 < Q.m11 - Q.m10 ^ 2 / Q.m00

noncomputable instance (Q : Mat2) : Decidable (cholOk Q) := by
  unfold cholOk; infer_instance

/-- The whitened Mahalanobis distance `d_mahal` of `mu_2d` produced by the
Cholesky forward-solve (probability.py lines 76–82): `L` is the lower
Cholesky factor of `Q`, `y = solve(L, mu_2d)`, `d = ‖y‖`. -/
noncomputable def whitenedD (mu : ℝ × ℝ) (Q : Mat2) : ℝ :=
  let L11 := Real.sqrt Q.m00
  let L21 := Q.m10 / L11
  let L22 := Real.sqrt (Q.m11 - Q.m10 ^ 2 / Q.m00)
  let y1 := mu.1 / L11
  let y2 := (mu.2 - L21 * y1) / L22
  Real.sqrt (y1 ^ 2 + y2 ^ 2)

/-- The unclamped Chan/Alfriend surrogate value computed by
probability.py lines 84–98, on the already-regularized covariance `Q`. -/
noncomputable def pc2dRaw (mu : ℝ × ℝ) (Q : Mat2) (hbr_km : ℝ) : ℝ :=
  let d := whitenedD mu Q
  if d = 0 then
    1 - Real.exp (-(0.5) * hbr_km ^ 2 / det2 Q)
  else
    let sigma_eff := Real.sqrt (det2 Q)
    let r_norm := hbr_km / sigma_eff
    if d < r_norm then
      1 - Real.exp (-(0.5) * r_norm ^ 2) * (1 + 0.5 * r_norm ^ 2)
    else
      Real.exp (-(0.5) * (d - r_norm) ^ 2) * (1 - Real.exp (-(0.5) * r_norm ^ 2))

/-- `compute_2d_collision_probability(mu_2d, P_2d, hbr_m)`
(probability.py lines 53–104).  The two ways the `try` block can fail in
exact-real semantics — complex eigenvalues making `eigenvals <= 0` raise,
and `np.linalg.cholesky` rejecting a matrix that is still not positive
definite after regularization — are caught by the local handler, which
returns `0.0`. -/
noncomputable def compute_2d_collision_probability (mu : ℝ × ℝ) (P : Mat2) (hbr_m : ℝ) : ℝ :=
  let hbr_km := hbr_m / 1000
  if eigDisc P < 0 then 0
  else
    let Q := regularize2 P
    if cholOk Q then max 0 (min 1 (pc2dRaw mu Q hbr_km)) else 0

/-! ## probability.py: Mahalanobis diagnostic, HBR heuristic, safety levels -/

/-- Inverse of a 2×2 matrix via the adjugate; `np.linalg.inv` raises
exactly on a singular matrix (`det2 P = 0`), which the source catches and
converts to `float('inf')` — modelled as `⊤`. -/
noncomputable def inv2 (P : Mat2) : Mat2 :=
  ⟨P.m11 / det2 P, -P.m01 / det2 P, -P.m10 / det2 P, P.m00 / det2 P⟩

/-- The quadratic form `muᵀ M mu` for a 2-vector. -/
noncomputable def quadForm2 (M : Mat2) (mu : ℝ × ℝ) : ℝ :=
  mu.1 * (M.m00 * mu.1 + M.m01 * mu.2) + mu.2 * (M.m10 * mu.1 + M.m11 * mu.2)

/-- `compute_mahalanobis_distance(mu_2d, P_2d)` (probability.py
lines 106–121): `sqrt(mu_2dᵀ · P_2d⁻¹ · mu_2d)`, or `inf` (here `⊤`) when
the inversion fails. -/
noncomputable def compute_mahalanobis_distance (mu : ℝ × ℝ) (P : Mat2) : WithTop ℝ :=
  if det2 P = 0 then ⊤
  else ((Real.sqrt (quadForm2 (inv2 P) mu) : ℝ) : WithTop ℝ)

/-- Uppercase a name, ASCII-wise, as a character list: the semantics of
Python's `name.upper()` on the ASCII names and keywords involved. -/
def upperChars (s : String) : List Char := s.data.map Char.toUpper

/-- Substring occurrence test on character lists (`kw in name`). -/
def occursIn (pat : List Char) : List Char → Bool
  | [] => pat.isEmpty
  | c :: rest => pat.isPrefixOf (c :: rest) || occursIn pat rest

/-- `keyword in name.upper()` for an (uppercase) keyword. -/
def hasKeyword (name : String) (kw : String) : Bool := occursIn kw.data (upperChars name)

/-- Station-class keywords (probability.py lines 137, 144). -/
def largeSatKeywords : List String := ["ISS", "SPACE STATION", "TIANGONG"]

/-- Mega-constellation keywords (probability.py lines 139, 146). -/
def smallSatKeywords : List String := ["STARLINK", "ONEWEB", "KEPLER"]

/-- Per-object radius estimate in meters (probability.py lines 137–149,
identical logic for both names). -/
noncomputable def sizeRadius (name : String) : ℝ :=
  if largeSatKeywords.any (fun kw => hasKeyword name kw) then 50.0
  else if smallSatKeywords.any (fun kw => hasKeyword name kw) then 3.0
  else 5.0

/-- `estimate_hard_body_radius(sat1_name, sat2_name)` (probability.py
lines 123–151): the sum of the two per-object radius estimates, meters. -/
noncomputable def estimate_hard_body_radius (sat1_name sat2_name : String) : ℝ :=
  sizeRadius sat1_name + sizeRadius sat2_name

/-- Safety levels attached to an analysis result. -/
inductive Safety where
  | CRITICAL
  | HIGH
  | MEDIUM
  | LOW
  | UNKNOWN
deriving DecidableEq, Repr

/-- The safety classification of probability.py lines 240–247 (strict
inequalities, evaluated high to low). -/
noncomputable def classifySafety (pc : ℝ) : Safety :=
  if pc > 1e-4 then .CRITICAL
  else if pc > 1e-5 then .HIGH
  else if pc > 1e-6 then .MEDIUM
  else .LOW

/-! ## probability.py: full analysis
(`compute_collision_probability_analysis`) -/

/-- The result dictionary of `compute_collision_probability_analysis`.
`pc_error` records whether the `collision_probability` sub-dictionary
carries an `"error"` entry. -/
structure PcAnalysis where
  min_distance_km : ℝ
  relative_speed_km_s : ℝ
  hbr_meters : ℝ
  pc_2d : Option ℝ
  mahalanobis_distance : Option (WithTop ℝ)
  mu_2d : Option (ℝ × ℝ)
  P_2d : Option Mat2
  pc_error : Bool
  safety_level : Safety

/-- The position covariance used by the analysis: the supplied position
block if any, else the heuristic diagonal synthesis of probability.py
lines 206–214 (`sigma_pos = max(0.1, d_min * 0.1)`, squared on the
diagonal; the velocity part of the synthesized 6×6 matrix is never read). -/
noncomputable def analysisPpos (r_rel _v_rel : V3) (P_rel : Option Mat3) : Mat3 :=
  match P_rel with
  | some M => M
  | none => Mat3.diagC ((max 0.1 (norm3 r_rel * 0.1)) ^ 2)

/-- The 2D encounter-plane covariance `P_2d = E @ P_pos @ E.T` built by
probability.py lines 224–225, with `E` the 2×3 matrix with rows `e1, e2`. -/
noncomputable def analysisP2d (r_rel v_rel : V3) (P_rel : Option Mat3) : Mat2 :=
  let Ppos := analysisPpos r_rel v_rel P_rel
  let e1 := e1Vec v_rel
  let e2 := e2Vec v_rel
  ⟨quad3 Ppos e1 e1, quad3 Ppos e1 e2, quad3 Ppos e2 e1, quad3 Ppos e2 e2⟩

/-- `compute_collision_probability_analysis(r_rel, v_rel, sat1_name,
sat2_name, P_rel)` (probability.py lines 153–254).  In exact-real
semantics every operation of the two `try` blocks is total, so the two
exception handlers (lines 179–187 and 249–252) are unreachable and the
success path is the whole function; numerical failures inside
`compute_2d_collision_probability` and `compute_mahalanobis_distance`
are absorbed by those functions themselves (`0.0` and `inf`). -/
noncomputable def compute_collision_probability_analysis
    (r_rel v_rel : V3) (sat1_name sat2_name : String) (P_rel : Option Mat3) : PcAnalysis :=
  let d_min := norm3 r_rel
  let v_rel_mag := norm3 v_rel
  let hbr_m := estimate_hard_body_radius sat1_name sat2_name
  let e1 := e1Vec v_rel
  let e2 := e2Vec v_rel
  let mu := project_to_encounter_plane r_rel e1 e2
  let P2 := analysisP2d r_rel v_rel P_rel
  let pc := compute_2d_collision_probability mu P2 hbr_m
  let mahal := compute_mahalanobis_distance mu P2
  { min_distance_km := d_min
    relative_speed_km_s := v_rel_mag
    hbr_meters := hbr_m
    pc_2d := some pc
    mahalanobis_distance := some mahal
    mu_2d := some mu
    P_2d := some P2
    pc_error := false
    safety_level := classifySafety pc }

/-! ## probability.py: maneuver advisory generator
(`generate_maneuver_suggestions`) -/

/-- One maneuver suggestion dictionary; all values in the source are
constant strings. -/
structure Suggestion where
  stype : String
  description : String
  timing : String
  delta_v_estimate : String
  direction : String
  reason : String
  priority : String
  fuel_cost : String
  expected_effectiveness : String
deriving DecidableEq, Repr

/-- The critical-threshold suggestion (probability.py lines 278–288). -/
def outOfPlaneSuggestion : Suggestion :=
  { stype := "out_of_plane_maneuver"
    description := "Execute small out-of-plane Δv maneuver"
    timing := "30 minutes before TCA"
    delta_v_estimate := "0.5-1.5 m/s"
    direction := "Cross-track (out-of-plane)"
    reason := "Increase miss distance; minimal phasing impact"
    priority := "CRITICAL"
    fuel_cost := "Low"
    expected_effectiveness := "High" }

/-- The high-threshold suggestion (probability.py lines 292–302). -/
def alongTrackSuggestion : Suggestion :=
  { stype := "along_track_maneuver"
    description := "Execute along-track bias maneuver"
    timing := "1-2 hours before TCA"
    delta_v_estimate := "0.2-0.8 m/s"
    direction := "Along-track"
    reason := "Desynchronize TCA timing with minimal fuel expenditure"
    priority := "HIGH"
    fuel_cost := "Very Low"
    expected_effectiveness := "Medium" }

/-- The medium-threshold suggestion (probability.py lines 306–316). -/
def monitorSuggestion : Suggestion :=
  { stype := "monitor"
    description := "Continue monitoring conjunction"
    timing := "Continuous"
    delta_v_estimate := "0 m/s"
    direction := "None"
    reason := "Distance acceptable but requires monitoring"
    priority := "MEDIUM"
    fuel_cost := "None"
    expected_effectiveness := "N/A" }

/-- `generate_maneuver_suggestions(r_rel, v_rel, pc_2d, tca_utc)`
(probability.py lines 256–318).  The relative state and TCA arguments are
accepted and never used, exactly as in the source. -/
noncomputable def generate_maneuver_suggestions
    (_r_rel _v_rel : V3) (pc_2d : ℝ) (_tca_utc : ℚ) : List Suggestion :=
  if pc_2d > 1e-4 then [outOfPlaneSuggestion]
  else if pc_2d > 1e-5 then [alongTrackSuggestion]
  else if pc_2d > 1e-6 then [monitorSuggestion]
  else []

/-! ## orbit.py: the time-grid conjunction scan (`screen_conjunctions`) -/

/-- A two-line element set (`TLE` dataclass, orbit.py lines 9–13). -/
structure TLE where
  name : String
  l1 : String
  l2 : String

/-- A propagated state: inertial position (km) and velocity (km/s). -/
abbrev StateV := V3 × V3

/-- Python `int()` on a rational: truncation toward zero. -/
def pyInt (q : ℚ) : ℤ := if q < 0 then ⌈q⌉ else ⌊q⌋

/-- The sample grid of orbit.py line 59:
`[now + timedelta(seconds=i) for i in range(0, int(window_hours*3600)+1, int(step_seconds))]`,
as instants in seconds.  For a positive integer step `S` and
`W = int(window_hours*3600) ≥ 0` the Python range has
`(W + S) / S = W / S + 1` elements; for `W < 0` it is empty.  (The
`S = 0` case, where Python's `range` raises `ValueError`, is rejected
by `screenRaw` before this definition is used.) -/
def timeGrid (now : ℚ) (window_hours step_seconds : ℚ) : List ℚ :=
  let S : ℕ := (pyInt step_seconds).toNat
  if S = 0 then []
  else
    let cnt : ℕ := (pyInt (window_hours * 3600) + (S : ℤ)).toNat / S
    (List.range cnt).map (fun i => now + ((i * S : ℕ) : ℚ))

/-- Sequencing a fallible call over a list, stopping at the first raised
exception: the propagation loop of orbit.py lines 62–64. -/
def mapExcept {α β : Type _} (f : α → Except Unit β) : List α → Except Unit (List β)
  | [] => .ok []
  | a :: l =>
    match f a with
    | .error e => .error e
    | .ok b =>
      match mapExcept f l with
      | .error e => .error e
      | .ok bs => .ok (b :: bs)

/-- The per-candidate running state of the sample loop (orbit.py line 73):
the distance series `dmins` (`⊤` = `np.inf` for a failed sample), the
relative-speed series `relspeeds` (`none` = `np.nan` for a failed sample)
and the running best index `tca_idx`. -/
structure CandState where
  dmins : List (WithTop ℝ)
  relspeeds : List (Option ℝ)
  tca_idx : ℕ

/-- One iteration of the sample loop (orbit.py lines 74–83) for the sample
`(t, (user_r[k], user_v[k]))`, where `k` is the current length of the
series.  On a propagation failure the distance is recorded as infinite and
the speed as NaN; on success the best index moves to `k` whenever the new
distance is `≤` the distance stored at the current best index. -/
noncomputable def candStep (propO : ℚ → Except Unit StateV)
    (st : CandState) (samp : ℚ × StateV) : CandState :=
  match propO samp.1 with
  | .error _ => ⟨st.dmins ++ [⊤], st.relspeeds ++ [none], st.tca_idx⟩
  | .ok (r2, v2) =>
    let d : WithTop ℝ := ((norm3 (samp.2.1 - r2) : ℝ) : WithTop ℝ)
    let ds := st.dmins ++ [d]
    let ti := if d ≤ ds.getD st.tca_idx ⊤ then st.dmins.length else st.tca_idx
    ⟨ds, st.relspeeds ++ [some (norm3 (samp.2.2 - v2))], ti⟩

/-- The whole sample loop of orbit.py lines 73–83 over the zipped grid and
primary trajectory. -/
noncomputable def candidateScan (propO : ℚ → Except Unit StateV)
    (samples : List (ℚ × StateV)) : CandState :=
  samples.foldl (candStep propO) ⟨[], [], 0⟩

/-- The loop invariant of the sample loop: the running best index is in
range, the two series have equal length, the distance stored at the best
index is the minimum of the distance series, and a sample's distance is
infinite exactly when its recorded relative speed is NaN. -/
def CandInv (st : CandState) : Prop :=
  (st.tca_idx = 0 ∨ st.tca_idx < st.dmins.length) ∧
  st.relspeeds.length = st.dmins.length ∧
  st.dmins.getD st.tca_idx ⊤ = st.dmins.foldr min ⊤ ∧
  ∀ i, (st.dmins.getD i ⊤ = ⊤ ↔ st.relspeeds.getD i none = none)

/-- One conjunction event record of the scan output (the dictionaries
built at orbit.py lines 94–133).  `analysisBlock` is the merged
`compute_collision_probability_analysis` result (`result.update(...)`,
line 108; note the update overwrites `min_distance_km` with the analysis
value `norm(r_rel)`); `pc_failed` marks the fallback record of
lines 126–133, whose `collision_probability` is just an error marker. -/
structure EventR where
  other_name : String
  min_distance_km : WithTop ℝ
  tca_utc : ℚ
  rel_speed_km_s : Option ℝ
  catalog_index : ℕ
  analysisBlock : Option PcAnalysis
  pc_failed : Bool
  maneuver_suggestions : Option (List Suggestion)

/-- Processing of one live candidate after its sample loop (orbit.py
lines 84–133): promotion iff the true minimum distance is strictly below
the threshold, re-propagation of both objects at the tracked TCA instant,
optional probability analysis and maneuver suggestions, with the
re-propagation failure falling back to a basic record carrying an error
marker. -/
noncomputable def processCandidate {Sat : Type _} (prop : Sat → ℚ → Except Unit StateV)
    (user_sat other : Sat) (userName : String) (tgrid : List ℚ) (ustates : List StateV)
    (threshold_km : ℚ) (include_pc : Bool) (idx : ℕ) (tle : TLE) : List EventR :=
  let st := candidateScan (prop other) (tgrid.zip ustates)
  let dmin := st.dmins.foldr min ⊤
  if dmin < (((threshold_km : ℝ) : WithTop ℝ)) then
    let tca_time := tgrid.getD st.tca_idx 0
    match prop user_sat tca_time, prop other tca_time with
    | .ok (r1, v1), .ok (r2, v2) =>
      let r_rel := r1 - r2
      let v_rel := v1 - v2
      if include_pc then
        let pa := compute_collision_probability_analysis r_rel v_rel userName tle.name none
        [{ other_name := tle.name
           min_distance_km := ((pa.min_distance_km : ℝ) : WithTop ℝ)
           tca_utc := tca_time
           rel_speed_km_s := st.relspeeds.getD st.tca_idx none
           catalog_index := idx
           analysisBlock := some pa
           pc_failed := false
           maneuver_suggestions :=
             match pa.pc_2d with
             | some p => some (generate_maneuver_suggestions r_rel v_rel p tca_time)
             | none => none }]
      else
        [{ other_name := tle.name
           min_distance_km := dmin
           tca_utc := tca_time
           rel_speed_km_s := st.relspeeds.getD st.tca_idx none
           catalog_index := idx
           analysisBlock := none
           pc_failed := false
           maneuver_suggestions := none }]
    | _, _ =>
      [{ other_name := tle.name
         min_distance_km := dmin
         tca_utc := tca_time
         rel_speed_km_s := st.relspeeds.getD st.tca_idx none
         catalog_index := idx
         analysisBlock := none
         pc_failed := true
         maneuver_suggestions := none }]
  else []

/-- The catalog loop of orbit.py lines 68–133 over `enumerate(catalog[:max_catalog])`:
a candidate whose propagator construction fails is skipped with no record. -/
noncomputable def scanCandidates {Sat : Type _} (satF : TLE → Except Unit Sat)
    (prop : Sat → ℚ → Except Unit StateV) (user_sat : Sat) (userName : String)
    (tgrid : List ℚ) (ustates : List StateV) (threshold_km : ℚ) (include_pc : Bool) :
    List (ℕ × TLE) → List EventR
  | [] => []
  | (idx, tle) :: rest =>
    (match satF tle with
     | .error _ => []
     | .ok other =>
       processCandidate prop user_sat other userName tgrid ustates threshold_km include_pc idx tle)
    ++ scanCandidates satF prop user_sat userName tgrid ustates threshold_km include_pc rest

/-- The scan before its final sort (orbit.py lines 54–133).  The SGP4
collaborator is injected as the pair `satF` (`Satrec.twoline2rv`) and
`prop` (`propagate_teme_km`); the invocation instant `now`, read from the
global clock at orbit.py line 58, is an explicit input of the embedding.
The fatal exits are: `int(step_seconds) ≤ 0` (Python `range` raises
`ValueError`, or a nonpositive step yields an empty grid whose
`np.vstack` raises), primary propagator construction failure (line 60),
a primary propagation failure at any grid sample (lines 62–64, no
handler), and an empty grid (`np.vstack([])` raises). -/
noncomputable def screenRaw {Sat : Type _} (satF : TLE → Except Unit Sat)
    (prop : Sat → ℚ → Except Unit StateV) (now : ℚ) (user_tle : TLE) (catalog : List TLE)
    (window_hours step_seconds threshold_km : ℚ) (max_catalog : ℕ) (include_pc : Bool) :
    Except Unit (List EventR) :=
  if pyInt step_seconds ≤ 0 then .error ()
  else
    match satF user_tle with
    | .error _ => .error ()
    | .ok user_sat =>
      let tgrid := timeGrid now window_hours step_seconds
      if tgrid = [] then .error ()
      else
        match mapExcept (prop user_sat) tgrid with
        | .error _ => .error ()
        | .ok ustates =>
          .ok (scanCandidates satF prop user_sat user_tle.name tgrid ustates threshold_km
                include_pc ((catalog.take max_catalog).enum))

/-- The comparator of the final sort (orbit.py line 135):
`results.sort(key=lambda x: x["min_distance_km"])`, a stable sort by the
`min_distance_km` value. -/
noncomputable def evLE (a b : EventR) : Bool :=
  decide (a.min_distance_km ≤ b.min_distance_km)

/-- `screen_conjunctions` (orbit.py lines 54–136): the raw scan followed by
the stable sort of line 135. -/
noncomputable def screen_conjunctions {Sat : Type _} (satF : TLE → Except Unit Sat)
    (prop : Sat → ℚ → Except Unit StateV) (now : ℚ) (user_tle : TLE) (catalog : List TLE)
    (window_hours step_seconds threshold_km : ℚ) (max_catalog : ℕ) (include_pc : Bool) :
    Except Unit (List EventR) :=
  Except.map (fun rs => rs.mergeSort evLE)
    (screenRaw satF prop now user_tle catalog window_hours step_seconds threshold_km
      max_catalog include_pc)

/-! ## Spec-side formulas for the three probability branches (C6).
These definitions follow the wording of the specification, to be compared
with the source-derived `pc2dRaw`. -/

/-- Spec branch `d == 0`: `Pc = 1 − exp(−0.5·HBR_km²/det(P_2d))`. -/
noncomputable def specPcCenter (hbr_km detP : ℝ) : ℝ :=
  1 - Real.exp (-(0.5) * hbr_km ^ 2 / detP)

/-- Spec branch `0 < d < r_norm`:
`Pc = 1 − exp(−0.5·r_norm²)·(1 + 0.5·r_norm²)`. -/
noncomputable def specPcInside (r_norm : ℝ) : ℝ :=
  1 - Real.exp (-(0.5) * r_norm ^ 2) * (1 + 0.5 * r_norm ^ 2)

/-- Spec branch `d ≥ r_norm`:
`Pc = exp(−0.5·(d − r_norm)²)·(1 − exp(−0.5·r_norm²))`. -/
noncomputable def specPcOutside (d r_norm : ℝ) : ℝ :=
  Real.exp (-(0.5) * (d - r_norm) ^ 2) * (1 - Real.exp (-(0.5) * r_norm ^ 2))

/-! ## Claim theorems -/

/-- Componentwise subtraction, unfolded. -/
theorem V3.sub_def (a b : V3) : a - b = ⟨a.x - b.x, a.y - b.y, a.z - b.z⟩ := rfl


/-- C2: `compute_2d_collision_probability` always returns a value in
`[0, 1]` — the success branch is clamped by `max(0.0, min(1.0, Pc))` and
both failure branches return `0.0` — and consequently the `pc_2d` value
reported by every produced analysis block lies in `[0, 1]`. -/
theorem C2_pc_2d_clamped_to_unit_interval :
    (∀ (mu : ℝ × ℝ) (P : Mat2) (hbr_m : ℝ),
      0 ≤ compute_2d_collision_probability mu P hbr_m ∧
        compute_2d_collision_probability mu P hbr_m ≤ 1) ∧
    (∀ (r_rel v_rel : V3) (sat1_name sat2_name : String) (P_rel : Option Mat3),
      0 ≤ (compute_collision_probability_analysis r_rel v_rel sat1_name sat2_name
            P_rel).pc_2d.getD 0 ∧
        (compute_collision_probability_analysis r_rel v_rel sat1_name sat2_name
            P_rel).pc_2d.getD 0 ≤ 1) := by
  have h : ∀ (mu : ℝ × ℝ) (P : Mat2) (hbr_m : ℝ),
      0 ≤ compute_2d_collision_probability mu P hbr_m ∧
        compute_2d_collision_probability mu P hbr_m ≤ 1 := by
    intro mu P hbr_m
    unfold compute_2d_collision_probability
    by_cases h1 : eigDisc P < 0
    · simp [h1]
    · by_cases h2 : cholOk (regularize2 P)
      · simp only [h1, if_false, h2, if_true]
        refine ⟨le_max_left 0 _, max_le (by norm_num) (min_le_left 1 _)⟩
      · simp [h1, h2]
  refine ⟨h, fun r_rel v_rel n1 n2 P_rel => ?_⟩
  simpa [compute_collision_probability_analysis] using
    h (project_to_encounter_plane r_rel (e1Vec v_rel) (e2Vec v_rel))
      (analysisP2d r_rel v_rel P_rel) (estimate_hard_body_radius n1 n2)

/-- C7: `generate_maneuver_suggestions` depends only on its probability
argument, returns at most one suggestion, and implements the threshold
table: `pc > 1e-4` gives exactly the out-of-plane CRITICAL suggestion
(Δv 0.5–1.5 m/s, fired 30 minutes before TCA), `1e-5 < pc ≤ 1e-4` the
along-track HIGH suggestion, `1e-6 < pc ≤ 1e-5` the monitor MEDIUM
suggestion with zero Δv, and `pc ≤ 1e-6` the empty list. -/
theorem C7_maneuver_suggestions_pure_threshold_table
    (r_rel v_rel r' v' : V3) (pc_2d : ℝ) (tca tca' : ℚ) :
    generate_maneuver_suggestions r_rel v_rel pc_2d tca =
        generate_maneuver_suggestions r' v' pc_2d tca' ∧
    (1e-4 < pc_2d →
      generate_maneuver_suggestions r_rel v_rel pc_2d tca = [outOfPlaneSuggestion]) ∧
    (1e-5 < pc_2d ∧ pc_2d ≤ 1e-4 →
      generate_maneuver_suggestions r_rel v_rel pc_2d tca = [alongTrackSuggestion]) ∧
    (1e-6 < pc_2d ∧ pc_2d ≤ 1e-5 →
      generate_maneuver_suggestions r_rel v_rel pc_2d tca = [monitorSuggestion]) ∧
    (pc_2d ≤ 1e-6 → generate_maneuver_suggestions r_rel v_rel pc_2d tca = []) ∧
    outOfPlaneSuggestion.priority = "CRITICAL" ∧
    outOfPlaneSuggestion.delta_v_estimate = "0.5-1.5 m/s" ∧
    outOfPlaneSuggestion.timing = "30 minutes before TCA" ∧
    outOfPlaneSuggestion.stype = "out_of_plane_maneuver" ∧
    alongTrackSuggestion.priority = "HIGH" ∧
    alongTrackSuggestion.stype = "along_track_maneuver" ∧
    monitorSuggestion.priority = "MEDIUM" ∧
    monitorSuggestion.delta_v_estimate = "0 m/s" ∧
    monitorSuggestion.stype = "monitor" := by
  refine ⟨rfl, ?_, ?_, ?_, ?_, rfl, rfl, rfl, rfl, rfl, rfl, rfl, rfl, rfl⟩
  · intro h
    simp [generate_maneuver_suggestions, h]
  · rintro ⟨h1, h2⟩
    have : ¬ pc_2d > 1e-4 := not_lt.2 h2
    simp [generate_maneuver_suggestions, this, h1]
  · rintro ⟨h1, h2⟩
    have ha : ¬ pc_2d > 1e-4 := not_lt.2 (h2.trans (by norm_num))
    have hb : ¬ pc_2d > 1e-5 := not_lt.2 h2
    simp [generate_maneuver_suggestions, ha, hb, h1]
  · intro h
    have ha : ¬ pc_2d > 1e-4 := not_lt.2 (h.trans (by norm_num))
    have hb : ¬ pc_2d > 1e-5 := not_lt.2 (h.trans (by norm_num))
    have hc : ¬ pc_2d > 1e-6 := not_lt.2 h
    simp [generate_maneuver_suggestions, ha, hb, hc]

/-- C7 witness: the threshold table evaluated at the concrete
probabilities `1`, `5e-5`, `5e-6` and `0`. -/
theorem C7_maneuver_suggestions_witness :
    generate_maneuver_suggestions V3.zero V3.zero 1 0 = [outOfPlaneSuggestion] ∧
    generate_maneuver_suggestions V3.zero V3.zero 5e-5 0 = [alongTrackSuggestion] ∧
    generate_maneuver_suggestions V3.zero V3.zero 5e-6 0 = [monitorSuggestion] ∧
    generate_maneuver_suggestions V3.zero V3.zero 0 0 = [] :=
  ⟨(C7_maneuver_suggestions_pure_threshold_table V3.zero V3.zero V3.zero V3.zero 1 0 0).2.1
      (by norm_num),
   (C7_maneuver_suggestions_pure_threshold_table V3.zero V3.zero V3.zero V3.zero 5e-5 0 0).2.2.1
      ⟨by norm_num, by norm_num⟩,
   (C7_maneuver_suggestions_pure_threshold_table V3.zero V3.zero V3.zero V3.zero 5e-6 0 0).2.2.2.1
      ⟨by norm_num, by norm_num⟩,
   (C7_maneuver_suggestions_pure_threshold_table V3.zero V3.zero V3.zero V3.zero 0 0 0).2.2.2.2.1
      (by norm_num)⟩

/-- The whitened distance of the origin is zero, for every covariance. -/
theorem whitenedD_zero (Q : Mat2) : whitenedD (0, 0) Q = 0 := by
  simp [whitenedD]

/-- C6: on the success path (real eigenvalues, Cholesky succeeds on the
regularized covariance), `compute_2d_collision_probability` is the clamp
of the three-branch closed-form surrogate evaluated on the regularized
covariance: with `d` the Cholesky-whitened Mahalanobis distance,
`σ_eff = sqrt(det Q)` and `r_norm = HBR_km/σ_eff`, the raw value is the
spec's center formula when `d = 0`, the spec's inside formula when
`0 < d < r_norm`, and the spec's outside formula when `d ≥ r_norm`. -/
theorem C6_three_branch_closed_form (mu : ℝ × ℝ) (P : Mat2) (hbr_m : ℝ)
    (hdisc : 0 ≤ eigDisc P) (hchol : cholOk (regularize2 P)) :
    compute_2d_collision_probability mu P hbr_m =
      max 0 (min 1 (pc2dRaw mu (regularize2 P) (hbr_m / 1000))) ∧
    (whitenedD mu (regularize2 P) = 0 →
      pc2dRaw mu (regularize2 P) (hbr_m / 1000) =
        specPcCenter (hbr_m / 1000) (det2 (regularize2 P))) ∧
    (0 < whitenedD mu (regularize2 P) ∧
        whitenedD mu (regularize2 P) <
          (hbr_m / 1000) / Real.sqrt (det2 (regularize2 P)) →
      pc2dRaw mu (regularize2 P) (hbr_m / 1000) =
        specPcInside ((hbr_m / 1000) / Real.sqrt (det2 (regularize2 P)))) ∧
    (0 < whitenedD mu (regularize2 P) ∧
        (hbr_m / 1000) / Real.sqrt (det2 (regularize2 P)) ≤
          whitenedD mu (regularize2 P) →
      pc2dRaw mu (regularize2 P) (hbr_m / 1000) =
        specPcOutside (whitenedD mu (regularize2 P))
          ((hbr_m / 1000) / Real.sqrt (det2 (regularize2 P)))) := by
  refine ⟨?_, ?_, ?_, ?_⟩
  · unfold compute_2d_collision_probability
    rw [if_neg (not_lt.2 hdisc), if_pos hchol]
  · intro hd
    simp only [pc2dRaw, specPcCenter]
    rw [if_pos hd]
  · rintro ⟨hd0, hdlt⟩
    simp only [pc2dRaw, specPcInside]
    rw [if_neg (ne_of_gt hd0), if_pos hdlt]
  · rintro ⟨hd0, hge⟩
    simp only [pc2dRaw, specPcOutside]
    rw [if_neg (ne_of_gt hd0), if_neg (not_lt.2 hge)]

/-- C6 witness: at `mu = (0,0)`, `P = I`, `hbr_m = 1000` the success-path
hypotheses hold, the distance is zero and the raw value is the spec's
center formula. -/
theorem C6_three_branch_witness :
    (0 : ℝ) ≤ eigDisc ⟨1, 0, 0, 1⟩ ∧ cholOk (regularize2 ⟨1, 0, 0, 1⟩) ∧
    compute_2d_collision_probability (0, 0) ⟨1, 0, 0, 1⟩ 1000 =
      max 0 (min 1 (pc2dRaw (0, 0) (regularize2 ⟨1, 0, 0, 1⟩) (1000 / 1000))) ∧
    pc2dRaw (0, 0) (regularize2 ⟨1, 0, 0, 1⟩) (1000 / 1000) =
      specPcCenter (1000 / 1000) (det2 (regularize2 ⟨1, 0, 0, 1⟩)) := by
  have hdisc : (0 : ℝ) ≤ eigDisc ⟨1, 0, 0, 1⟩ := by
    unfold eigDisc tr2 det2; norm_num
  have hreg : regularize2 ⟨1, 0, 0, 1⟩ = ⟨1, 0, 0, 1⟩ := by
    unfold regularize2 tr2 det2
    rw [if_neg]
    push_neg
    norm_num
  have hchol : cholOk (regularize2 ⟨1, 0, 0, 1⟩) := by
    rw [hreg]; unfold cholOk; norm_num
  have h := C6_three_branch_closed_form (0, 0) ⟨1, 0, 0, 1⟩ 1000 hdisc hchol
  exact ⟨hdisc, hchol, h.1, h.2.1 (whitenedD_zero _)⟩

/-- The dot product of a vector with itself is a sum of squares. -/
theorem dot3_self_nonneg (a : V3) : 0 ≤ dot3 a a := by
  unfold dot3
  nlinarith [mul_self_nonneg a.x, mul_self_nonneg a.y, mul_self_nonneg a.z]

/-- A vector with vanishing self-dot-product is the zero vector. -/
theorem dot3_self_eq_zero_iff (a : V3) : dot3 a a = 0 ↔ a = V3.zero := by
  unfold dot3 V3.zero
  constructor
  · intro h
    have hx : a.x = 0 := by nlinarith [mul_self_nonneg a.y, mul_self_nonneg a.z]
    have hy : a.y = 0 := by nlinarith [mul_self_nonneg a.x, mul_self_nonneg a.z]
    have hz : a.z = 0 := by nlinarith [mul_self_nonneg a.x, mul_self_nonneg a.y]
    cases a
    simp_all
  · intro h
    rw [h]
    norm_num

/-- The square of the Euclidean norm is the self-dot-product. -/
theorem norm3_sq (a : V3) : norm3 a ^ 2 = dot3 a a :=
  Real.sq_sqrt (dot3_self_nonneg a)

/-- Lagrange identity for the 3D cross product. -/
theorem lagrange3 (a b : V3) :
    dot3 (cross3 a b) (cross3 a b) = dot3 a a * dot3 b b - dot3 a b ^ 2 := by
  unfold dot3 cross3
  ring

/-- The cross product is orthogonal to its first factor. -/
theorem dot3_cross_left (a b : V3) : dot3 a (cross3 a b) = 0 := by
  unfold dot3 cross3
  ring

/-- The cross product is orthogonal to its second factor. -/
theorem dot3_cross_right (a b : V3) : dot3 b (cross3 a b) = 0 := by
  unfold dot3 cross3
  ring

/-- Scalar division factors out of the first argument of a dot product. -/
theorem dot3_vdiv_left (a b : V3) (c : ℝ) : dot3 (vdiv a c) b = dot3 a b / c := by
  unfold dot3 vdiv
  ring

/-- Scalar division factors out of the second argument of a dot product. -/
theorem dot3_vdiv_right (a b : V3) (c : ℝ) : dot3 a (vdiv b c) = dot3 a b / c := by
  unfold dot3 vdiv
  ring

/-- Self-dot-product of a scalar-divided vector. -/
theorem dot3_vdiv_both (a : V3) (c : ℝ) :
    dot3 (vdiv a c) (vdiv a c) = dot3 a a / c ^ 2 := by
  unfold dot3 vdiv
  ring

/-- Dividing a vector by the scalar one changes nothing. -/
theorem vdiv_one (a : V3) : vdiv a 1 = a := by
  unfold vdiv
  simp

/-- The direction vector of a nonzero relative velocity is a unit vector. -/
theorem uHat_unit {v : V3} (hv : v ≠ V3.zero) : dot3 (uHat v) (uHat v) = 1 := by
  have dpos : 0 < dot3 v v :=
    lt_of_le_of_ne (dot3_self_nonneg v)
      (fun h => hv ((dot3_self_eq_zero_iff v).1 h.symm))
  unfold uHat
  rw [dot3_vdiv_both, norm3_sq, div_self (ne_of_gt dpos)]

/-- The unnormalized first basis vector of the encounter plane has positive
squared length: the fallback choice of reference axis keeps the cross
product away from degeneracy. -/
theorem e1Raw_sq_pos {v : V3} (hv : v ≠ V3.zero) :
    0 < dot3 (e1Raw v) (e1Raw v) := by
  have uu := uHat_unit hv
  simp only [e1Raw]
  by_cases hz : |(uHat v).z| < 0.9
  · rw [if_pos hz]
    have hdz : dot3 (uHat v) ⟨0, 0, 1⟩ = (uHat v).z := by unfold dot3; ring
    have hzz : dot3 (⟨0, 0, 1⟩ : V3) ⟨0, 0, 1⟩ = 1 := by unfold dot3; ring
    rw [lagrange3, uu, hzz, hdz]
    have h9 := abs_lt.mp hz
    nlinarith [h9.1, h9.2]
  · rw [if_neg hz]
    have hdx : dot3 (uHat v) ⟨1, 0, 0⟩ = (uHat v).x := by unfold dot3; ring
    have hxx : dot3 (⟨1, 0, 0⟩ : V3) ⟨1, 0, 0⟩ = 1 := by unfold dot3; ring
    rw [lagrange3, uu, hxx, hdx]
    have h9 : (0.9 : ℝ) ≤ |(uHat v).z| := not_lt.1 hz
    have hsq : (0.9 : ℝ) ^ 2 ≤ (uHat v).z ^ 2 := by
      have := pow_le_pow_left₀ (by norm_num : (0 : ℝ) ≤ 0.9) h9 2
      rwa [sq_abs] at this
    have huu : (uHat v).x * (uHat v).x + (uHat v).y * (uHat v).y +
        (uHat v).z * (uHat v).z = 1 := uu
    nlinarith [mul_self_nonneg (uHat v).y]

/-- The first encounter-plane basis vector is a unit vector. -/
theorem e1Vec_unit {v : V3} (hv : v ≠ V3.zero) : dot3 (e1Vec v) (e1Vec v) = 1 := by
  have hw := e1Raw_sq_pos hv
  unfold e1Vec
  rw [dot3_vdiv_both, norm3_sq, div_self (ne_of_gt hw)]

/-- The first basis vector is orthogonal to the direction of motion. -/
theorem uHat_dot_e1Vec {v : V3} : dot3 (uHat v) (e1Vec v) = 0 := by
  have hraw : dot3 (uHat v) (e1Raw v) = 0 := by
    simp only [e1Raw]
    split_ifs <;> exact dot3_cross_left _ _
  unfold e1Vec
  rw [dot3_vdiv_right, hraw, zero_div]

/-- The unnormalized second basis vector `u × e1` is already a unit vector. -/
theorem cross_uHat_e1Vec_unit {v : V3} (hv : v ≠ V3.zero) :
    dot3 (cross3 (uHat v) (e1Vec v)) (cross3 (uHat v) (e1Vec v)) = 1 := by
  rw [lagrange3, uHat_unit hv, e1Vec_unit hv, uHat_dot_e1Vec]
  ring

/-- The second basis vector equals the plain cross product `u × e1`. -/
theorem e2Vec_eq_cross {v : V3} (hv : v ≠ V3.zero) :
    e2Vec v = cross3 (uHat v) (e1Vec v) := by
  have h1 : norm3 (cross3 (uHat v) (e1Vec v)) = 1 := by
    unfold norm3
    rw [cross_uHat_e1Vec_unit hv, Real.sqrt_one]
  simp only [e2Vec]
  rw [h1, vdiv_one]

/-- C8: for every nonzero relative velocity, `compute_encounter_plane`
returns the triple `(u, e1, e2)` with `u` the unit relative-velocity
vector, and the triple is right-handed orthonormal (`u × e1 = e2`); the
reference axis of the first cross product is the Z-axis when
`|u.z| < 0.9` and the X-axis when `|u.z| ≥ 0.9`, and in both cases the
construction is non-degenerate. -/
theorem C8_encounter_plane_orthonormal (r_rel v_rel : V3) (hv : v_rel ≠ V3.zero) :
    compute_encounter_plane r_rel v_rel = (uHat v_rel, e1Vec v_rel, e2Vec v_rel) ∧
    uHat v_rel = vdiv v_rel (norm3 v_rel) ∧
    dot3 (uHat v_rel) (uHat v_rel) = 1 ∧
    dot3 (e1Vec v_rel) (e1Vec v_rel) = 1 ∧
    dot3 (e2Vec v_rel) (e2Vec v_rel) = 1 ∧
    dot3 (uHat v_rel) (e1Vec v_rel) = 0 ∧
    dot3 (uHat v_rel) (e2Vec v_rel) = 0 ∧
    dot3 (e1Vec v_rel) (e2Vec v_rel) = 0 ∧
    cross3 (uHat v_rel) (e1Vec v_rel) = e2Vec v_rel ∧
    (|(uHat v_rel).z| < 0.9 →
      e1Vec v_rel = vdiv (cross3 (uHat v_rel) ⟨0, 0, 1⟩)
        (norm3 (cross3 (uHat v_rel) ⟨0, 0, 1⟩))) ∧
    (0.9 ≤ |(uHat v_rel).z| →
      e1Vec v_rel = vdiv (cross3 (uHat v_rel) ⟨1, 0, 0⟩)
        (norm3 (cross3 (uHat v_rel) ⟨1, 0, 0⟩))) := by
  have he2 := e2Vec_eq_cross hv
  refine ⟨rfl, rfl, uHat_unit hv, e1Vec_unit hv, ?_, uHat_dot_e1Vec, ?_, ?_, he2.symm, ?_, ?_⟩
  · rw [he2]
    exact cross_uHat_e1Vec_unit hv
  · rw [he2]
    exact dot3_cross_left _ _
  · rw [he2]
    exact dot3_cross_right _ _
  · intro hz
    unfold e1Vec e1Raw
    rw [if_pos hz]
  · intro hz
    unfold e1Vec e1Raw
    rw [if_neg (not_lt.2 hz)]

/-- C8 witness: a relative velocity exactly along the Z-axis triggers the
X-axis fallback and still yields an orthonormal right-handed triple. -/
theorem C8_encounter_plane_witness :
    ((⟨0, 0, 2⟩ : V3) ≠ V3.zero) ∧
    (0.9 : ℝ) ≤ |(uHat ⟨0, 0, 2⟩).z| ∧
    e1Vec ⟨0, 0, 2⟩ = vdiv (cross3 (uHat ⟨0, 0, 2⟩) ⟨1, 0, 0⟩)
      (norm3 (cross3 (uHat ⟨0, 0, 2⟩) ⟨1, 0, 0⟩)) ∧
    dot3 (uHat ⟨0, 0, 2⟩) (uHat ⟨0, 0, 2⟩) = 1 ∧
    dot3 (e1Vec ⟨0, 0, 2⟩) (e1Vec ⟨0, 0, 2⟩) = 1 ∧
    dot3 (e2Vec ⟨0, 0, 2⟩) (e2Vec ⟨0, 0, 2⟩) = 1 ∧
    cross3 (uHat ⟨0, 0, 2⟩) (e1Vec ⟨0, 0, 2⟩) = e2Vec ⟨0, 0, 2⟩ := by
  have hv : (⟨0, 0, 2⟩ : V3) ≠ V3.zero := by
    intro h
    have := congrArg V3.z h
    unfold V3.zero at this
    norm_num at this
  have hn : norm3 ⟨0, 0, 2⟩ = 2 := by
    unfold norm3 dot3
    have h4 : (0 : ℝ) * 0 + 0 * 0 + 2 * 2 = 2 ^ 2 := by norm_num
    rw [h4, Real.sqrt_sq (by norm_num : (0 : ℝ) ≤ 2)]
  have hz : (0.9 : ℝ) ≤ |(uHat ⟨0, 0, 2⟩).z| := by
    have huz : (uHat ⟨0, 0, 2⟩).z = 1 := by
      unfold uHat vdiv
      rw [hn]
      norm_num
    rw [huz]
    norm_num
  have h := C8_encounter_plane_orthonormal ⟨0, 0, 0⟩ ⟨0, 0, 2⟩ hv
  exact ⟨hv, hz, h.2.2.2.2.2.2.2.2.2.2 hz, h.2.2.1, h.2.2.2.1, h.2.2.2.2.1,
    h.2.2.2.2.2.2.2.2.1⟩

/-- Python truncation agrees with the floor on nonnegative rationals. -/
theorem pyInt_of_nonneg {q : ℚ} (h : 0 ≤ q) : pyInt q = ⌊q⌋ := by
  unfold pyInt
  rw [if_neg (not_lt.2 h)]

/-- Closed form of the time grid under valid parameters: with
`W = int(window_hours*3600) ≥ 0` and `S = int(step_seconds) ≥ 1` it is the
map of `i ↦ now + i·S` over `range (W/S + 1)`. -/
theorem timeGrid_eq {now w s : ℚ} (hW : 0 ≤ pyInt (w * 3600)) (hS : 1 ≤ pyInt s) :
    timeGrid now w s =
      (List.range ((pyInt (w * 3600)).toNat / (pyInt s).toNat + 1)).map
        (fun i => now + ((i * (pyInt s).toNat : ℕ) : ℚ)) := by
  have hS0 : (pyInt s).toNat ≠ 0 := by omega
  have hS0' : 0 < (pyInt s).toNat := by omega
  have hcnt : (pyInt (w * 3600) + ((pyInt s).toNat : ℤ)).toNat =
      (pyInt (w * 3600)).toNat + (pyInt s).toNat := by omega
  simp only [timeGrid, hS0, if_false]
  rw [hcnt, Nat.add_div_right _ hS0']

/-- Entries of the time grid under valid parameters. -/
theorem timeGrid_getD {now w s : ℚ} (hW : 0 ≤ pyInt (w * 3600)) (hS : 1 ≤ pyInt s)
    {k : ℕ} (hk : k < (pyInt (w * 3600)).toNat / (pyInt s).toNat + 1) :
    (timeGrid now w s).getD k 0 = now + ((k * (pyInt s).toNat : ℕ) : ℚ) := by
  rw [timeGrid_eq hW hS,
    List.getD_eq_getElem _ _ (by simpa using hk), List.getElem_map, List.getElem_range]

/-- C3 (amended): for a window with `int(window_hours*3600) ≥ 0` and a step
with `S = int(step_seconds) ≥ 1`, the time grid is strictly increasing,
starts at the invocation instant, has consecutive instants exactly `S`
seconds apart, and has length `int(window_hours*3600) / S + 1` (integer
division); when the window is a whole number `m` of seconds and the step a
whole number `n ≥ 1` of seconds this length is `⌊m / n⌋ + 1`, the form
claimed by the specification. -/
theorem C3_timegrid_amended (now w s : ℚ) (hW : 0 ≤ pyInt (w * 3600))
    (hS : 1 ≤ pyInt s) :
    (timeGrid now w s).length = (pyInt (w * 3600)).toNat / (pyInt s).toNat + 1 ∧
    (timeGrid now w s).getD 0 0 = now ∧
    List.Pairwise (fun a b : ℚ => a < b) (timeGrid now w s) ∧
    (∀ k, k + 1 < (timeGrid now w s).length →
      (timeGrid now w s).getD (k + 1) 0 - (timeGrid now w s).getD k 0 =
        (((pyInt s).toNat : ℕ) : ℚ)) ∧
    (∀ m n : ℕ, 1 ≤ n →
      ((timeGrid now ((m : ℚ) / 3600) ((n : ℚ))).length : ℤ) =
        ⌊((m : ℚ) / (n : ℚ))⌋ + 1) := by
  have hlen : (timeGrid now w s).length =
      (pyInt (w * 3600)).toNat / (pyInt s).toNat + 1 := by
    rw [timeGrid_eq hW hS, List.length_map, List.length_range]
  refine ⟨hlen, ?_, ?_, ?_, ?_⟩
  · rw [timeGrid_getD hW hS (Nat.succ_pos _)]
    simp
  · rw [timeGrid_eq hW hS]
    refine List.pairwise_map.mpr ?_
    refine (List.pairwise_lt_range _).imp ?_
    intro a b hab
    have hS0 : 0 < (pyInt s).toNat := by omega
    have : (a * (pyInt s).toNat : ℕ) < b * (pyInt s).toNat :=
      (Nat.mul_lt_mul_right hS0).mpr hab
    have : ((a * (pyInt s).toNat : ℕ) : ℚ) < ((b * (pyInt s).toNat : ℕ) : ℚ) :=
      Nat.cast_lt.2 this
    linarith
  · intro k hk
    rw [hlen] at hk
    rw [timeGrid_getD hW hS (by omega), timeGrid_getD hW hS (by omega)]
    push_cast
    ring
  · intro m n hn
    have hw' : ((m : ℚ) / 3600) * 3600 = (m : ℚ) := by
      field_simp
    have hpm : pyInt (((m : ℚ) / 3600) * 3600) = (m : ℤ) := by
      rw [hw', pyInt_of_nonneg (by positivity), Int.floor_natCast]
    have hpn : pyInt ((n : ℚ)) = (n : ℤ) := by
      rw [pyInt_of_nonneg (by positivity), Int.floor_natCast]
    have hW' : 0 ≤ pyInt (((m : ℚ) / 3600) * 3600) := by rw [hpm]; positivity
    have hS' : 1 ≤ pyInt ((n : ℚ)) := by rw [hpn]; exact_mod_cast hn
    have := @timeGrid_eq now ((m : ℚ) / 3600) ((n : ℚ)) hW' hS'
    rw [this, List.length_map, List.length_range, hpm, hpn, Rat.floor_natCast_div_natCast]
    push_cast [Int.toNat_natCast]
    ring

/-- C3 witness: the default parameters (24 h window, 60 s step) give a
grid of `1441` instants starting at the invocation instant. -/
theorem C3_timegrid_witness :
    (0 : ℤ) ≤ pyInt ((24 : ℚ) * 3600) ∧ (1 : ℤ) ≤ pyInt (60 : ℚ) ∧
    (timeGrid 7 24 60).length = (pyInt ((24 : ℚ) * 3600)).toNat / (pyInt (60 : ℚ)).toNat + 1 ∧
    (timeGrid 7 24 60).getD 0 0 = 7 := by
  have hW : (0 : ℤ) ≤ pyInt ((24 : ℚ) * 3600) := by
    rw [pyInt_of_nonneg (by norm_num)]
    rw [show ((24 : ℚ) * 3600) = ((86400 : ℕ) : ℚ) by norm_num, Int.floor_natCast]
    norm_num
  have hS : (1 : ℤ) ≤ pyInt (60 : ℚ) := by
    rw [pyInt_of_nonneg (by norm_num)]
    rw [show ((60 : ℚ)) = ((60 : ℕ) : ℚ) by norm_num, Int.floor_natCast]
    norm_num
  have h := C3_timegrid_amended 7 24 60 hW hS
  exact ⟨hW, hS, h.1, h.2.1⟩

/-- C3 counterexample: with a 10-second window and a fractional step of
2.5 s the code builds a grid of 6 instants spaced 2 s apart, while the
claim requires `⌊10 / 2.5⌋ + 1 = 5` instants spaced 2.5 s apart. -/
theorem C3_timegrid_counterexample :
    ((timeGrid 0 (1 / 360) (5 / 2)).length : ℤ) ≠
      ⌊((1 / 360 : ℚ) * 3600) / (5 / 2)⌋ + 1 ∧
    (timeGrid 0 (1 / 360) (5 / 2)).getD 1 0 - (timeGrid 0 (1 / 360) (5 / 2)).getD 0 0 ≠
      (5 / 2 : ℚ) := by
  have hpw : pyInt ((1 / 360 : ℚ) * 3600) = 10 := by
    rw [show ((1 / 360 : ℚ) * 3600) = ((10 : ℕ) : ℚ) by norm_num,
      pyInt_of_nonneg (by norm_num), Int.floor_natCast]
    norm_num
  have hps : pyInt (5 / 2 : ℚ) = 2 := by
    rw [pyInt_of_nonneg (by norm_num), Int.floor_eq_iff]
    norm_num
  have hW : 0 ≤ pyInt ((1 / 360 : ℚ) * 3600) := by rw [hpw]; norm_num
  have hS : 1 ≤ pyInt (5 / 2 : ℚ) := by rw [hps]; norm_num
  have hfl : ⌊((1 / 360 : ℚ) * 3600) / (5 / 2)⌋ = 4 := by
    rw [show ((1 / 360 : ℚ) * 3600) / (5 / 2) = 4 by norm_num]
    exact Int.floor_intCast 4
  constructor
  · rw [timeGrid_eq hW hS, List.length_map, List.length_range, hpw, hps, hfl]
    decide
  · rw [timeGrid_getD hW hS (by rw [hpw, hps]; decide),
      timeGrid_getD hW hS (by rw [hpw, hps]; decide), hps]
    rw [show Int.toNat 2 = 2 from rfl]
    norm_num

/-- The norm of the zero vector vanishes. -/
theorem norm3_V3_zero : norm3 V3.zero = 0 := by
  unfold norm3 dot3 V3.zero
  simp

/-- Reading a just-appended element. -/
theorem getD_append_self {α : Type _} (l : List α) (x d : α) :
    (l ++ [x]).getD l.length d = x := by
  rw [List.getD_eq_getElem _ _ (by simp)]
  rw [List.getElem_append_right (le_refl _)]
  simp

/-- Folding `min` from an arbitrary seed versus the top seed. -/
theorem foldr_min_init {α : Type _} [LinearOrder α] [OrderTop α] (x : α) (l : List α) :
    l.foldr min x = min (l.foldr min ⊤) x := by
  induction l with
  | nil => simp [min_eq_right le_top]
  | cons a l ih =>
    simp only [List.foldr_cons, ih]
    rw [min_assoc]

/-- Appending one element to a `min`-fold. -/
theorem foldr_min_append {α : Type _} [LinearOrder α] [OrderTop α] (l : List α) (x : α) :
    (l ++ [x]).foldr min ⊤ = min (l.foldr min ⊤) x := by
  rw [List.foldr_append]
  simp only [List.foldr_cons, List.foldr_nil]
  rw [min_eq_left le_top, foldr_min_init]

/-- The infinite-distance/NaN-speed correspondence survives appending one
consistent pair of entries. -/
theorem candIff_append {ds : List (WithTop ℝ)} {rs : List (Option ℝ)}
    (hlen : rs.length = ds.length)
    (hiff : ∀ i, (ds.getD i ⊤ = ⊤ ↔ rs.getD i none = none))
    {x : WithTop ℝ} {y : Option ℝ} (hxy : x = ⊤ ↔ y = none) :
    ∀ i, ((ds ++ [x]).getD i ⊤ = ⊤ ↔ (rs ++ [y]).getD i none = none) := by
  intro i
  rcases lt_trichotomy i ds.length with hi | hi | hi
  · rw [List.getD_append _ _ _ _ hi, List.getD_append _ _ _ _ (by omega)]
    exact hiff i
  · rw [hi, getD_append_self, show ds.length = rs.length from hlen.symm, getD_append_self]
    exact hxy
  · rw [List.getD_eq_default _ _ (by simp; omega), List.getD_eq_default _ _ (by simp; omega)]
    simp

/-- Unfolding of one sample-loop step on a failed propagation. -/
theorem candStep_of_error {propO : ℚ → Except Unit StateV} {samp : ℚ × StateV}
    {st : CandState} {e : Unit} (hp : propO samp.1 = .error e) :
    candStep propO st samp = ⟨st.dmins ++ [⊤], st.relspeeds ++ [none], st.tca_idx⟩ := by
  unfold candStep
  rw [hp]

/-- Unfolding of one sample-loop step on a successful propagation. -/
theorem candStep_of_ok {propO : ℚ → Except Unit StateV} {samp : ℚ × StateV}
    {st : CandState} {r2 v2 : V3} (hp : propO samp.1 = .ok (r2, v2)) :
    candStep propO st samp =
      ⟨st.dmins ++ [((norm3 (samp.2.1 - r2) : ℝ) : WithTop ℝ)],
       st.relspeeds ++ [some (norm3 (samp.2.2 - v2))],
       if ((norm3 (samp.2.1 - r2) : ℝ) : WithTop ℝ) ≤
          (st.dmins ++ [((norm3 (samp.2.1 - r2) : ℝ) : WithTop ℝ)]).getD st.tca_idx ⊤
       then st.dmins.length else st.tca_idx⟩ := by
  unfold candStep
  rw [hp]

/-- One step of the sample loop preserves the loop invariant. -/
theorem candStep_inv (propO : ℚ → Except Unit StateV) (samp : ℚ × StateV)
    {st : CandState} (h : CandInv st) : CandInv (candStep propO st samp) := by
  obtain ⟨hb, hlen, hmin, hiff⟩ := h
  cases hp : propO samp.1 with
  | error e =>
    rw [candStep_of_error hp]
    refine ⟨?_, ?_, ?_, ?_⟩
    · rcases hb with hb | hb
      · exact Or.inl hb
      · exact Or.inr (by simp only [List.length_append, List.length_cons]; omega)
    · simp only [List.length_append, List.length_cons, List.length_nil, hlen]
    · show (st.dmins ++ [⊤]).getD st.tca_idx ⊤ = (st.dmins ++ [⊤]).foldr min ⊤
      rw [foldr_min_append, min_eq_left le_top]
      rcases hb with hb | hb
      · by_cases hn : st.dmins.length = 0
        · have hnil : st.dmins = [] := List.length_eq_zero.1 hn
          rw [hb, hnil] at hmin ⊢
          simp
        · rw [List.getD_append _ _ _ _ (by omega)]
          exact hmin
      · rw [List.getD_append _ _ _ _ hb]
        exact hmin
    · exact candIff_append hlen hiff (by simp)
  | ok sv =>
    obtain ⟨r2, v2⟩ := sv
    rw [candStep_of_ok hp]
    by_cases hn : st.dmins = []
    · have h0 : st.tca_idx = 0 := by
        rcases hb with hb | hb
        · exact hb
        · rw [hn] at hb; simp at hb
      have hrs : st.relspeeds = [] := by
        rw [hn] at hlen
        exact List.length_eq_zero.1 (by simpa using hlen)
      have hc : (((norm3 (samp.2.1 - r2) : ℝ)) : WithTop ℝ) ≤
          ((st.dmins ++ [((norm3 (samp.2.1 - r2) : ℝ) : WithTop ℝ)]).getD st.tca_idx ⊤) := by
        rw [hn, h0]
        simp [List.getD]
      rw [if_pos hc]
      refine ⟨?_, ?_, ?_, ?_⟩
      · rw [hn]
        exact Or.inl rfl
      · simp only [List.length_append, List.length_cons, List.length_nil, hlen]
      · show (st.dmins ++ _).getD st.dmins.length ⊤ = (st.dmins ++ _).foldr min ⊤
        rw [getD_append_self, foldr_min_append, hn]
        simp [min_eq_left le_top]
      · exact candIff_append hlen hiff (by simp)
    · have hpos : 0 < st.dmins.length := List.length_pos.2 hn
      have hlt : st.tca_idx < st.dmins.length := by
        rcases hb with hb | hb
        · omega
        · exact hb
      have hbest : (st.dmins ++ [((norm3 (samp.2.1 - r2) : ℝ) : WithTop ℝ)]).getD
          st.tca_idx ⊤ = st.dmins.foldr min ⊤ := by
        rw [List.getD_append _ _ _ _ hlt]
        exact hmin
      by_cases hc : (((norm3 (samp.2.1 - r2) : ℝ)) : WithTop ℝ) ≤
          ((st.dmins ++ [((norm3 (samp.2.1 - r2) : ℝ) : WithTop ℝ)]).getD st.tca_idx ⊤)
      · rw [if_pos hc]
        refine ⟨?_, ?_, ?_, ?_⟩
        · right
          simp only [List.length_append, List.length_cons, List.length_nil]
          omega
        · simp only [List.length_append, List.length_cons, List.length_nil, hlen]
        · show (st.dmins ++ _).getD st.dmins.length ⊤ = (st.dmins ++ _).foldr min ⊤
          rw [getD_append_self, foldr_min_append]
          rw [hbest] at hc
          rw [min_eq_right hc]
        · exact candIff_append hlen hiff (by simp)
      · rw [if_neg hc]
        refine ⟨?_, ?_, ?_, ?_⟩
        · right
          simp only [List.length_append, List.length_cons, List.length_nil]
          omega
        · simp only [List.length_append, List.length_cons, List.length_nil, hlen]
        · show (st.dmins ++ _).getD st.tca_idx ⊤ = (st.dmins ++ _).foldr min ⊤
          rw [hbest, foldr_min_append]
          rw [hbest] at hc
          rw [min_eq_left (le_of_lt (not_le.1 hc))]
        · exact candIff_append hlen hiff (by simp)

/-- The whole sample loop establishes the loop invariant. -/
theorem candidateScan_inv (propO : ℚ → Except Unit StateV) (samples : List (ℚ × StateV)) :
    CandInv (candidateScan propO samples) := by
  unfold candidateScan
  have h0 : CandInv ⟨[], [], 0⟩ := by
    refine ⟨Or.inl rfl, rfl, rfl, fun i => ?_⟩
    simp [List.getD]
  generalize hst : (⟨[], [], 0⟩ : CandState) = st at h0
  clear hst
  induction samples generalizing st with
  | nil => exact h0
  | cons a l ih =>
    rw [List.foldl_cons]
    exact ih _ (candStep_inv propO a h0)

/-- C10: for every candidate with at least one successfully propagated
sample, at the end of the sample loop the distance stored at the running
best index equals the true minimum of the distance series (exactly, with
infinite failure samples and ties permitted); consequently whenever the
minimum clears a finite promotion threshold, the best index refers to a
successfully propagated sample (finite stored distance) and the recorded
relative speed at the best index is an actual real number, never NaN. -/
theorem C10_best_index_tracks_true_minimum
    (propO : ℚ → Except Unit StateV) (samples : List (ℚ × StateV))
    (_hsucc : ∃ p ∈ samples, ∃ sv, propO p.1 = Except.ok sv) :
    (candidateScan propO samples).dmins.getD (candidateScan propO samples).tca_idx ⊤ =
      (candidateScan propO samples).dmins.foldr min ⊤ ∧
    ∀ threshold_km : ℚ,
      (candidateScan propO samples).dmins.foldr min ⊤ < (((threshold_km : ℝ)) : WithTop ℝ) →
      (candidateScan propO samples).dmins.getD (candidateScan propO samples).tca_idx ⊤ ≠ ⊤ ∧
      ∃ x : ℝ, (candidateScan propO samples).relspeeds.getD
        (candidateScan propO samples).tca_idx none = some x := by
  obtain ⟨_, _, hmin, hiff⟩ := candidateScan_inv propO samples
  refine ⟨hmin, fun thr hthr => ?_⟩
  have hne : (candidateScan propO samples).dmins.getD
      (candidateScan propO samples).tca_idx ⊤ ≠ ⊤ := by
    rw [hmin]
    exact ne_top_of_lt hthr
  refine ⟨hne, ?_⟩
  have hrs : (candidateScan propO samples).relspeeds.getD
      (candidateScan propO samples).tca_idx none ≠ none :=
    fun h => hne ((hiff _).2 h)
  exact Option.ne_none_iff_exists'.1 hrs

/-- C10 witness: a single successfully propagated zero-separation sample;
the best index stores a finite distance and a real relative speed under
the default 5 km threshold. -/
theorem C10_best_index_witness :
    (candidateScan (fun _ : ℚ => (Except.ok (V3.zero, V3.zero) : Except Unit StateV))
        [((0 : ℚ), (V3.zero, V3.zero))]).dmins.getD
      (candidateScan (fun _ : ℚ => (Except.ok (V3.zero, V3.zero) : Except Unit StateV))
        [((0 : ℚ), (V3.zero, V3.zero))]).tca_idx ⊤ ≠ ⊤ ∧
    ∃ x : ℝ, (candidateScan (fun _ : ℚ => (Except.ok (V3.zero, V3.zero) : Except Unit StateV))
        [((0 : ℚ), (V3.zero, V3.zero))]).relspeeds.getD
      (candidateScan (fun _ : ℚ => (Except.ok (V3.zero, V3.zero) : Except Unit StateV))
        [((0 : ℚ), (V3.zero, V3.zero))]).tca_idx none = some x := by
  have hsub : V3.zero - V3.zero = V3.zero := by
    rw [V3.sub_def]
    simp [V3.zero]
  have heval : candidateScan (fun _ : ℚ => (Except.ok (V3.zero, V3.zero) : Except Unit StateV))
      [((0 : ℚ), (V3.zero, V3.zero))] =
      ⟨[((0 : ℝ) : WithTop ℝ)], [some 0], 0⟩ := by
    unfold candidateScan
    rw [List.foldl_cons, List.foldl_nil, candStep_of_ok rfl]
    simp [hsub, norm3_V3_zero, List.getD]
  refine (C10_best_index_tracks_true_minimum _ _
    ⟨((0 : ℚ), (V3.zero, V3.zero)), by simp, (V3.zero, V3.zero), rfl⟩).2 5 ?_
  rw [heval]
  show List.foldr min ⊤ [((0 : ℝ) : WithTop ℝ)] < _
  simp only [List.foldr_cons, List.foldr_nil]
  rw [min_eq_left le_top]
  exact WithTop.coe_lt_coe.2 (by norm_num)

/-- The sort comparator is transitive. -/
theorem evLE_trans : ∀ a b c : EventR, evLE a b = true → evLE b c = true → evLE a c = true := by
  intro a b c hab hbc
  simp only [evLE, decide_eq_true_eq] at *
  exact le_trans hab hbc

/-- The sort comparator is total. -/
theorem evLE_total : ∀ a b : EventR, (evLE a b || evLE b a) = true := by
  intro a b
  simp only [evLE, Bool.or_eq_true, decide_eq_true_eq]
  exact le_total _ _

/-- C9: whenever the raw scan succeeds, `screen_conjunctions` returns its
stable sort: the output is sorted non-decreasing by `min_distance_km`,
and for every key value the subsequence of events carrying that key is
exactly the subsequence of the unsorted (production-order) list — ties
keep production order. -/
theorem C9_output_sorted_and_stable {Sat : Type} (satF : TLE → Except Unit Sat)
    (prop : Sat → ℚ → Except Unit StateV) (now : ℚ) (user_tle : TLE) (catalog : List TLE)
    (window_hours step_seconds threshold_km : ℚ) (max_catalog : ℕ) (include_pc : Bool)
    (rs : List EventR)
    (hraw : screenRaw satF prop now user_tle catalog window_hours step_seconds threshold_km
      max_catalog include_pc = .ok rs) :
    screen_conjunctions satF prop now user_tle catalog window_hours step_seconds threshold_km
      max_catalog include_pc = .ok (rs.mergeSort evLE) ∧
    List.Pairwise (fun a b : EventR => a.min_distance_km ≤ b.min_distance_km)
      (rs.mergeSort evLE) ∧
    ∀ c : WithTop ℝ,
      (rs.mergeSort evLE).filter (fun e => decide (e.min_distance_km = c)) =
        rs.filter (fun e => decide (e.min_distance_km = c)) := by
  refine ⟨?_, ?_, ?_⟩
  · unfold screen_conjunctions
    rw [hraw]
    rfl
  · exact (List.sorted_mergeSort evLE_trans evLE_total rs).imp
      (fun h => by simpa [evLE, decide_eq_true_eq] using h)
  · intro c
    have hpair : (rs.filter (fun e => decide (e.min_distance_km = c))).Pairwise
        (fun a b => evLE a b = true) := by
      refine List.pairwise_of_forall_mem_list ?_
      intro a ha b hb
      have ha' := (List.mem_filter.1 ha).2
      have hb' := (List.mem_filter.1 hb).2
      simp only [decide_eq_true_eq] at ha' hb'
      simp [evLE, ha', hb']
    have hsubsort : (rs.filter (fun e => decide (e.min_distance_km = c))).Sublist
        (rs.mergeSort evLE) :=
      List.sublist_mergeSort evLE_trans evLE_total hpair (List.filter_sublist rs)
    have hself : (rs.filter (fun e => decide (e.min_distance_km = c))).filter
        (fun e => decide (e.min_distance_km = c)) =
        rs.filter (fun e => decide (e.min_distance_km = c)) :=
      List.filter_eq_self.2 (fun a ha => (List.mem_filter.1 ha).2)
    have hsubf := List.Sublist.filter (fun e => decide (e.min_distance_km = c)) hsubsort
    rw [hself] at hsubf
    have hlen : ((rs.mergeSort evLE).filter (fun e => decide (e.min_distance_km = c))).length =
        (rs.filter (fun e => decide (e.min_distance_km = c))).length :=
      (List.Perm.filter _ (List.mergeSort_perm rs evLE)).length_eq
    exact (hsubf.eq_of_length hlen.symm).symm

/-- The scan fails outright on a nonpositive integer step. -/
theorem screenRaw_step_invalid {Sat : Type} {satF : TLE → Except Unit Sat}
    {prop : Sat → ℚ → Except Unit StateV} {now : ℚ} {user_tle : TLE} {catalog : List TLE}
    {w s thr : ℚ} {maxc : ℕ} {inc : Bool} (hs : pyInt s ≤ 0) :
    screenRaw satF prop now user_tle catalog w s thr maxc inc = .error () := by
  simp only [screenRaw]
  rw [if_pos hs]

/-- The scan fails outright when the primary propagator cannot be built. -/
theorem screenRaw_user_construction_error {Sat : Type} {satF : TLE → Except Unit Sat}
    {prop : Sat → ℚ → Except Unit StateV} {now : ℚ} {user_tle : TLE} {catalog : List TLE}
    {w s thr : ℚ} {maxc : ℕ} {inc : Bool} {e : Unit} (hs : ¬ pyInt s ≤ 0)
    (hu : satF user_tle = .error e) :
    screenRaw satF prop now user_tle catalog w s thr maxc inc = .error () := by
  simp only [screenRaw]
  rw [if_neg hs, hu]

/-- The scan fails outright on an empty grid (`np.vstack([])` raises). -/
theorem screenRaw_empty_grid {Sat : Type} {satF : TLE → Except Unit Sat}
    {prop : Sat → ℚ → Except Unit StateV} {now : ℚ} {user_tle : TLE} {catalog : List TLE}
    {w s thr : ℚ} {maxc : ℕ} {inc : Bool} {us : Sat} (hs : ¬ pyInt s ≤ 0)
    (hu : satF user_tle = .ok us) (hg : timeGrid now w s = []) :
    screenRaw satF prop now user_tle catalog w s thr maxc inc = .error () := by
  simp only [screenRaw]
  rw [if_neg hs, hu]
  simp only []
  rw [if_pos hg]

/-- The scan fails outright when propagating the primary fails at some
grid sample. -/
theorem screenRaw_primary_prop_error {Sat : Type} {satF : TLE → Except Unit Sat}
    {prop : Sat → ℚ → Except Unit StateV} {now : ℚ} {user_tle : TLE} {catalog : List TLE}
    {w s thr : ℚ} {maxc : ℕ} {inc : Bool} {us : Sat} {e : Unit} (hs : ¬ pyInt s ≤ 0)
    (hu : satF user_tle = .ok us) (hg : timeGrid now w s ≠ [])
    (hm : mapExcept (prop us) (timeGrid now w s) = .error e) :
    screenRaw satF prop now user_tle catalog w s thr maxc inc = .error () := by
  simp only [screenRaw]
  rw [if_neg hs, hu]
  simp only []
  rw [if_neg hg, hm]

/-- Unfolding of the successful scan setup: valid step, primary
constructed, nonempty grid, all primary propagations succeeded. -/
theorem screenRaw_ok {Sat : Type} {satF : TLE → Except Unit Sat}
    {prop : Sat → ℚ → Except Unit StateV} {now : ℚ} {user_tle : TLE} {catalog : List TLE}
    {w s thr : ℚ} {maxc : ℕ} {inc : Bool} {us : Sat} {ustates : List StateV}
    (hs : ¬ pyInt s ≤ 0) (hu : satF user_tle = .ok us) (hg : timeGrid now w s ≠ [])
    (hm : mapExcept (prop us) (timeGrid now w s) = .ok ustates) :
    screenRaw satF prop now user_tle catalog w s thr maxc inc =
      .ok (scanCandidates satF prop us user_tle.name (timeGrid now w s) ustates thr inc
        ((catalog.take maxc).enum)) := by
  simp only [screenRaw]
  rw [if_neg hs, hu]
  simp only []
  rw [if_neg hg, hm]

/-- Python `int()` of the rational one. -/
theorem pyInt_one : pyInt (1 : ℚ) = 1 := by
  rw [pyInt_of_nonneg (by norm_num), Int.floor_one]

/-- A zero-hour window with a one-second step yields the one-sample grid. -/
theorem timeGrid_zero_window (now : ℚ) : timeGrid now 0 1 = [now] := by
  have h0 : pyInt ((0 : ℚ) * 3600) = 0 := by
    rw [show ((0 : ℚ) * 3600) = ((0 : ℕ) : ℚ) by norm_num,
      pyInt_of_nonneg (by norm_num), Int.floor_natCast]
    rfl
  rw [timeGrid_eq h0.ge pyInt_one.ge, h0, pyInt_one]
  simp [List.range_succ]

/-- C9 witness: a successful trivial scan (empty catalog) on which the
sorted output is the stable sort of the raw output. -/
theorem C9_output_sorted_witness :
    screenRaw (fun _ : TLE => (Except.ok () : Except Unit Unit))
      (fun _ _ => Except.ok (V3.zero, V3.zero)) 0 ⟨"U", "1", "2"⟩ [] 0 1 5 300 false =
      .ok [] ∧
    screen_conjunctions (fun _ : TLE => (Except.ok () : Except Unit Unit))
      (fun _ _ => Except.ok (V3.zero, V3.zero)) 0 ⟨"U", "1", "2"⟩ [] 0 1 5 300 false =
      .ok (([] : List EventR).mergeSort evLE) ∧
    List.Pairwise (fun a b : EventR => a.min_distance_km ≤ b.min_distance_km)
      (([] : List EventR).mergeSort evLE) := by
  have hs : ¬ pyInt (1 : ℚ) ≤ 0 := by
    rw [pyInt_one]
    norm_num
  have hg : timeGrid 0 0 1 ≠ [] := by
    rw [timeGrid_zero_window]
    simp
  have hm : mapExcept ((fun (_ : Unit) (_ : ℚ) => Except.ok (V3.zero, V3.zero)) ())
      (timeGrid 0 0 1) = .ok [(V3.zero, V3.zero)] := by
    rw [timeGrid_zero_window]
    rfl
  have hu : (fun _ : TLE => (Except.ok () : Except Unit Unit)) ⟨"U", "1", "2"⟩ =
      Except.ok () := rfl
  have hstep : screenRaw (fun _ : TLE => (Except.ok () : Except Unit Unit))
      (fun _ _ => Except.ok (V3.zero, V3.zero)) 0 ⟨"U", "1", "2"⟩ [] 0 1 5 300 false =
      .ok (scanCandidates (fun _ : TLE => (Except.ok () : Except Unit Unit))
        (fun _ _ => Except.ok (V3.zero, V3.zero)) () "U" (timeGrid 0 0 1)
        [(V3.zero, V3.zero)] 5 false ((List.take 300 ([] : List TLE)).enum)) :=
    screenRaw_ok hs hu hg hm
  have hraw : screenRaw (fun _ : TLE => (Except.ok () : Except Unit Unit))
      (fun _ _ => Except.ok (V3.zero, V3.zero)) 0 ⟨"U", "1", "2"⟩ [] 0 1 5 300 false =
      .ok [] := hstep.trans rfl
  have h := C9_output_sorted_and_stable (fun _ : TLE => (Except.ok () : Except Unit Unit))
    (fun _ _ => Except.ok (V3.zero, V3.zero)) 0 ⟨"U", "1", "2"⟩ [] 0 1 5 300 false [] hraw
  exact ⟨hraw, h.1, h.2.1⟩

/-- The distance series accumulated by the sample loop, explicitly: one
entry per sample, infinite on propagation failure, the separation norm on
success. -/
theorem candidateScan_dmins_foldl (propO : ℚ → Except Unit StateV)
    (samples : List (ℚ × StateV)) : ∀ st : CandState,
    (samples.foldl (candStep propO) st).dmins = st.dmins ++
      samples.map (fun p =>
        match propO p.1 with
        | .error _ => (⊤ : WithTop ℝ)
        | .ok q => ((norm3 (p.2.1 - q.1) : ℝ) : WithTop ℝ)) := by
  induction samples with
  | nil =>
    intro st
    simp
  | cons a l ih =>
    intro st
    rw [List.foldl_cons, ih]
    cases hp : propO a.1 with
    | error e =>
      rw [candStep_of_error hp]
      simp [hp]
    | ok q =>
      obtain ⟨r2, v2⟩ := q
      rw [candStep_of_ok hp]
      simp [hp]

/-- The distance series of a full candidate scan. -/
theorem candidateScan_dmins_spec (propO : ℚ → Except Unit StateV)
    (samples : List (ℚ × StateV)) :
    (candidateScan propO samples).dmins =
      samples.map (fun p =>
        match propO p.1 with
        | .error _ => (⊤ : WithTop ℝ)
        | .ok q => ((norm3 (p.2.1 - q.1) : ℝ) : WithTop ℝ)) := by
  unfold candidateScan
  rw [candidateScan_dmins_foldl]
  rfl

/-- Every event emitted for a candidate carries that candidate's catalog
index. -/
theorem processCandidate_index {Sat : Type} {prop : Sat → ℚ → Except Unit StateV}
    {user_sat other : Sat} {userName : String} {tgrid : List ℚ} {ustates : List StateV}
    {threshold_km : ℚ} {include_pc : Bool} {idx : ℕ} {tle : TLE} {ev : EventR}
    (h : ev ∈ processCandidate prop user_sat other userName tgrid ustates threshold_km
      include_pc idx tle) : ev.catalog_index = idx := by
  simp only [processCandidate] at h
  split at h
  all_goals try split at h
  all_goals try split at h
  all_goals
    first
      | (rcases List.mem_singleton.1 h with rfl; rfl)
      | simp at h

/-- Provenance of scan events: every event produced by the catalog loop
comes from an enumerated catalog entry whose propagator construction
succeeded, and carries that entry's index. -/
theorem scanCandidates_mem {Sat : Type} {satF : TLE → Except Unit Sat}
    {prop : Sat → ℚ → Except Unit StateV} {user_sat : Sat} {userName : String}
    {tgrid : List ℚ} {ustates : List StateV} {threshold_km : ℚ} {include_pc : Bool}
    {pairs : List (ℕ × TLE)} {ev : EventR}
    (h : ev ∈ scanCandidates satF prop user_sat userName tgrid ustates threshold_km
      include_pc pairs) :
    ∃ p ∈ pairs, ev.catalog_index = p.1 ∧ ∃ other, satF p.2 = .ok other := by
  induction pairs with
  | nil => simp [scanCandidates] at h
  | cons a rest ih =>
    obtain ⟨idx, tle⟩ := a
    unfold scanCandidates at h
    rcases List.mem_append.1 h with h1 | h2
    · cases hsat : satF tle with
      | error e =>
        rw [hsat] at h1
        simp at h1
      | ok other =>
        rw [hsat] at h1
        exact ⟨(idx, tle), List.mem_cons_self _ _,
          processCandidate_index h1, other, hsat⟩
    · obtain ⟨p, hp, hidx, hother⟩ := ih h2
      exact ⟨p, List.mem_cons_of_mem _ hp, hidx, hother⟩

/-- Inversion of a successful scan: a successful `screenRaw` run passed
the step check, built the primary propagator, propagated it on the whole
(nonempty) grid, and returned the catalog loop's event list. -/
theorem screenRaw_ok_inv {Sat : Type} {satF : TLE → Except Unit Sat}
    {prop : Sat → ℚ → Except Unit StateV} {now : ℚ} {user_tle : TLE} {catalog : List TLE}
    {w s thr : ℚ} {maxc : ℕ} {inc : Bool} {rs : List EventR}
    (hraw : screenRaw satF prop now user_tle catalog w s thr maxc inc = .ok rs) :
    ∃ us ustates, satF user_tle = .ok us ∧
      mapExcept (prop us) (timeGrid now w s) = .ok ustates ∧
      rs = scanCandidates satF prop us user_tle.name (timeGrid now w s) ustates thr inc
        ((catalog.take maxc).enum) := by
  simp only [screenRaw] at hraw
  split at hraw
  · cases hraw
  · split at hraw
    · cases hraw
    · split at hraw
      · cases hraw
      · split at hraw
        · cases hraw
        · injection hraw with hraw
          exact ⟨_, _, by assumption, by assumption, hraw.symm⟩

/-- C4 (amended): the scan's fatal failures are exactly the setup ones —
an invalid step, a primary propagator construction failure, an empty grid,
or a primary propagation failure at any grid sample (orbit.py lines 62–64
have no handler, so this failure also aborts the whole scan, beyond what
the original claim allows).  Once the primary trajectory is in hand
nothing else is fatal; a catalog object whose propagator construction
fails contributes no event (every emitted event points to a
successfully-constructed entry); and a per-sample propagation failure of
a candidate is recorded as an infinite distance for exactly that sample
while the scan continues. -/
theorem C4_failure_containment_amended {Sat : Type} (satF : TLE → Except Unit Sat)
    (prop : Sat → ℚ → Except Unit StateV) (now : ℚ) (user_tle : TLE) (catalog : List TLE)
    (w s thr : ℚ) (maxc : ℕ) (inc : Bool) :
    (satF user_tle = .error () →
      screen_conjunctions satF prop now user_tle catalog w s thr maxc inc = .error ()) ∧
    (∀ us e, ¬ pyInt s ≤ 0 → satF user_tle = .ok us → timeGrid now w s ≠ [] →
      mapExcept (prop us) (timeGrid now w s) = .error e →
      screen_conjunctions satF prop now user_tle catalog w s thr maxc inc = .error ()) ∧
    (∀ us ustates, ¬ pyInt s ≤ 0 → satF user_tle = .ok us → timeGrid now w s ≠ [] →
      mapExcept (prop us) (timeGrid now w s) = .ok ustates →
      ∃ l, screen_conjunctions satF prop now user_tle catalog w s thr maxc inc = .ok l) ∧
    (∀ l, screen_conjunctions satF prop now user_tle catalog w s thr maxc inc = .ok l →
      ∀ ev ∈ l, ∃ p ∈ (catalog.take maxc).enum, ev.catalog_index = p.1 ∧
        ∃ other, satF p.2 = .ok other) ∧
    (∀ (propO : ℚ → Except Unit StateV) (samples : List (ℚ × StateV)),
      (candidateScan propO samples).dmins =
        samples.map (fun p =>
          match propO p.1 with
          | .error _ => (⊤ : WithTop ℝ)
          | .ok q => ((norm3 (p.2.1 - q.1) : ℝ) : WithTop ℝ))) := by
  refine ⟨?_, ?_, ?_, ?_, fun propO samples => candidateScan_dmins_spec propO samples⟩
  · intro hu
    unfold screen_conjunctions
    by_cases hs : pyInt s ≤ 0
    · rw [screenRaw_step_invalid hs]
      rfl
    · rw [screenRaw_user_construction_error hs hu]
      rfl
  · intro us e hs hu hg hm
    unfold screen_conjunctions
    rw [screenRaw_primary_prop_error hs hu hg hm]
    rfl
  · intro us ustates hs hu hg hm
    refine ⟨(scanCandidates satF prop us user_tle.name (timeGrid now w s) ustates thr inc
      ((catalog.take maxc).enum)).mergeSort evLE, ?_⟩
    unfold screen_conjunctions
    rw [screenRaw_ok hs hu hg hm]
    rfl
  · intro l hl ev hev
    unfold screen_conjunctions at hl
    cases hraw : screenRaw satF prop now user_tle catalog w s thr maxc inc with
    | error e =>
      rw [hraw] at hl
      cases hl
    | ok rs =>
      rw [hraw] at hl
      injection hl with hl
      obtain ⟨us, ustates, hu, hm, hrs⟩ := screenRaw_ok_inv hraw
      have hev' : ev ∈ rs := by
        rw [← hl] at hev
        exact ((List.mergeSort_perm rs evLE).mem_iff).1 hev
      rw [hrs] at hev'
      exact scanCandidates_mem hev'

/-- C4 witness: with everything constructible but the propagation
collaborator failing, the whole scan aborts even though the primary
element set is fine; and a valid trivial scan returns a list. -/
theorem C4_failure_containment_witness :
    screen_conjunctions (fun _ : TLE => (Except.ok () : Except Unit Unit))
      (fun _ _ => (Except.error () : Except Unit StateV)) 0 ⟨"U", "1", "2"⟩ [] 0 1 5 300 false =
      .error () ∧
    (∃ l, screen_conjunctions (fun _ : TLE => (Except.ok () : Except Unit Unit))
      (fun _ _ => Except.ok (V3.zero, V3.zero)) 0 ⟨"U", "1", "2"⟩ [] 0 1 5 300 false = .ok l) := by
  have hs : ¬ pyInt (1 : ℚ) ≤ 0 := by
    rw [pyInt_one]
    norm_num
  have hg : timeGrid 0 0 1 ≠ [] := by
    rw [timeGrid_zero_window]
    simp
  constructor
  · have hu : (fun _ : TLE => (Except.ok () : Except Unit Unit)) ⟨"U", "1", "2"⟩ =
        Except.ok () := rfl
    have hm : mapExcept ((fun (_ : Unit) (_ : ℚ) => (Except.error () : Except Unit StateV)) ())
        (timeGrid 0 0 1) = .error () := by
      rw [timeGrid_zero_window]
      rfl
    exact (C4_failure_containment_amended (fun _ : TLE => (Except.ok () : Except Unit Unit))
      (fun _ _ => (Except.error () : Except Unit StateV)) 0 ⟨"U", "1", "2"⟩ [] 0 1 5 300
      false).2.1 () () hs hu hg hm
  · have hu : (fun _ : TLE => (Except.ok () : Except Unit Unit)) ⟨"U", "1", "2"⟩ =
        Except.ok () := rfl
    have hm : mapExcept ((fun (_ : Unit) (_ : ℚ) => Except.ok (V3.zero, V3.zero)) ())
        (timeGrid 0 0 1) = .ok [(V3.zero, V3.zero)] := by
      rw [timeGrid_zero_window]
      rfl
    exact (C4_failure_containment_amended (fun _ : TLE => (Except.ok () : Except Unit Unit))
      (fun _ _ => Except.ok (V3.zero, V3.zero)) 0 ⟨"U", "1", "2"⟩ [] 0 1 5 300
      false).2.2.1 () [(V3.zero, V3.zero)] hs hu hg hm

/-- C4 counterexample: the original claim says only a primary-propagator
construction failure can abort the scan; here construction succeeds for
every element set, yet the scan aborts because the primary fails to
propagate at a grid sample. -/
theorem C4_failure_containment_counterexample :
    ((fun _ : TLE => (Except.ok () : Except Unit Unit)) ⟨"U", "1", "2"⟩ = Except.ok ()) ∧
    screen_conjunctions (fun _ : TLE => (Except.ok () : Except Unit Unit))
      (fun _ _ => (Except.error () : Except Unit StateV)) 0 ⟨"U", "1", "2"⟩
      [⟨"O", "1", "2"⟩] 0 1 5 300 false = .error () := by
  have hs : ¬ pyInt (1 : ℚ) ≤ 0 := by
    rw [pyInt_one]
    norm_num
  have hg : timeGrid 0 0 1 ≠ [] := by
    rw [timeGrid_zero_window]
    simp
  have hm : mapExcept ((fun (_ : Unit) (_ : ℚ) => (Except.error () : Except Unit StateV)) ())
      (timeGrid 0 0 1) = .error () := by
    rw [timeGrid_zero_window]
    rfl
  have hu : (fun _ : TLE => (Except.ok () : Except Unit Unit)) ⟨"U", "1", "2"⟩ =
      Except.ok () := rfl
  refine ⟨rfl, ?_⟩
  unfold screen_conjunctions
  rw [screenRaw_primary_prop_error hs hu hg hm]
  rfl

/-- C1: the invocation instant read from the ambient clock at
orbit.py line 58 is a genuine input of the scan: with every explicit
argument (element sets, window, step, threshold, cap, flag) held fixed,
two runs whose ambient clocks read 0 s and 60 s produce different
outputs, because the propagation collaborator is consulted at different
instants.  Hence the output is not a function of the explicit arguments
alone, refuting byte-identical output across repeated runs; determinism
holds only once `now` is fixed, which the embedding makes explicit. -/
theorem C1_scan_depends_on_ambient_clock :
    screen_conjunctions (fun _ : TLE => (Except.ok () : Except Unit Unit))
      (fun _ t => if t ≤ 50 then Except.ok (V3.zero, V3.zero) else Except.error ()) 0
      ⟨"U", "1", "2"⟩ [] 0 1 5 300 false = .ok [] ∧
    screen_conjunctions (fun _ : TLE => (Except.ok () : Except Unit Unit))
      (fun _ t => if t ≤ 50 then Except.ok (V3.zero, V3.zero) else Except.error ()) 60
      ⟨"U", "1", "2"⟩ [] 0 1 5 300 false = .error () ∧
    screen_conjunctions (fun _ : TLE => (Except.ok () : Except Unit Unit))
      (fun _ t => if t ≤ 50 then Except.ok (V3.zero, V3.zero) else Except.error ()) 0
      ⟨"U", "1", "2"⟩ [] 0 1 5 300 false ≠
    screen_conjunctions (fun _ : TLE => (Except.ok () : Except Unit Unit))
      (fun _ t => if t ≤ 50 then Except.ok (V3.zero, V3.zero) else Except.error ()) 60
      ⟨"U", "1", "2"⟩ [] 0 1 5 300 false := by
  have hs : ¬ pyInt (1 : ℚ) ≤ 0 := by
    rw [pyInt_one]
    norm_num
  have hu : (fun _ : TLE => (Except.ok () : Except Unit Unit)) ⟨"U", "1", "2"⟩ =
      Except.ok () := rfl
  have hf0 : (fun (_ : Unit) (t : ℚ) =>
      if t ≤ 50 then Except.ok (V3.zero, V3.zero) else Except.error ()) () 0 =
      Except.ok (V3.zero, V3.zero) := if_pos (by norm_num)
  have hf60 : (fun (_ : Unit) (t : ℚ) =>
      if t ≤ 50 then Except.ok (V3.zero, V3.zero) else Except.error ()) () 60 =
      (Except.error () : Except Unit StateV) := if_neg (by norm_num)
  have hm0 : mapExcept ((fun (_ : Unit) (t : ℚ) =>
      if t ≤ 50 then Except.ok (V3.zero, V3.zero) else Except.error ()) ())
      (timeGrid 0 0 1) = .ok [(V3.zero, V3.zero)] := by
    rw [timeGrid_zero_window]
    simp only [mapExcept, hf0]
  have hm60 : mapExcept ((fun (_ : Unit) (t : ℚ) =>
      if t ≤ 50 then Except.ok (V3.zero, V3.zero) else Except.error ()) ())
      (timeGrid 60 0 1) = .error () := by
    rw [timeGrid_zero_window]
    simp only [mapExcept, hf60]
  have h0 : screen_conjunctions (fun _ : TLE => (Except.ok () : Except Unit Unit))
      (fun _ t => if t ≤ 50 then Except.ok (V3.zero, V3.zero) else Except.error ()) 0
      ⟨"U", "1", "2"⟩ [] 0 1 5 300 false = .ok [] := by
    unfold screen_conjunctions
    rw [screenRaw_ok hs hu (by rw [timeGrid_zero_window]; simp) hm0]
    simp [scanCandidates, Except.map, List.mergeSort_nil]
  have h60 : screen_conjunctions (fun _ : TLE => (Except.ok () : Except Unit Unit))
      (fun _ t => if t ≤ 50 then Except.ok (V3.zero, V3.zero) else Except.error ()) 60
      ⟨"U", "1", "2"⟩ [] 0 1 5 300 false = .error () := by
    unfold screen_conjunctions
    rw [screenRaw_primary_prop_error hs hu (by rw [timeGrid_zero_window]; simp) hm60]
    rfl
  refine ⟨h0, h60, ?_⟩
  rw [h0, h60]
  simp

/-- C5 (amended): numerical failures during probability estimation are
absorbed below the level of the result's error marker — a covariance that
is still not Cholesky-decomposable after regularization (or has complex
eigenvalues) makes `compute_2d_collision_probability` return `0.0`, and a
failed inversion (singular `P_2d`) makes the Mahalanobis diagnostic
`inf` — while the analysis result carries no error marker, its safety
level is derived from the probability thresholds (never `UNKNOWN` on this
path), and its Mahalanobis field simply records the `inf`.  Only an
exception escaping to the analysis wrapper would set an error marker and
`UNKNOWN`, and in exact-real semantics the wrapped operations are total. -/
theorem C5_numerical_failure_masking_amended :
    (∀ (mu : ℝ × ℝ) (P : Mat2) (hbr_m : ℝ),
      eigDisc P < 0 ∨ ¬ cholOk (regularize2 P) →
      compute_2d_collision_probability mu P hbr_m = 0) ∧
    (∀ (mu : ℝ × ℝ) (P : Mat2), det2 P = 0 → compute_mahalanobis_distance mu P = ⊤) ∧
    (∀ pc : ℝ, classifySafety pc ≠ Safety.UNKNOWN) ∧
    (∀ (r_rel v_rel : V3) (sat1_name sat2_name : String) (P_rel : Option Mat3),
      (compute_collision_probability_analysis r_rel v_rel sat1_name sat2_name
        P_rel).pc_error = false ∧
      (compute_collision_probability_analysis r_rel v_rel sat1_name sat2_name
        P_rel).safety_level = classifySafety
          ((compute_collision_probability_analysis r_rel v_rel sat1_name sat2_name
            P_rel).pc_2d.getD 0) ∧
      (compute_collision_probability_analysis r_rel v_rel sat1_name sat2_name
        P_rel).mahalanobis_distance = some (compute_mahalanobis_distance
          (project_to_encounter_plane r_rel (e1Vec v_rel) (e2Vec v_rel))
          (analysisP2d r_rel v_rel P_rel))) := by
  refine ⟨?_, ?_, ?_, ?_⟩
  · intro mu P hbr_m h
    unfold compute_2d_collision_probability
    rcases h with h | h
    · rw [if_pos h]
    · by_cases hd : eigDisc P < 0
      · rw [if_pos hd]
      · rw [if_neg hd, if_neg h]
  · intro mu P h
    unfold compute_mahalanobis_distance
    rw [if_pos h]
  · intro pc
    unfold classifySafety
    split_ifs <;> simp
  · intro r_rel v_rel n1 n2 P_rel
    exact ⟨rfl, rfl, rfl⟩

/-- C5 witness: a covariance that stays non-positive-definite after
regularization is masked as probability `0.0`, and a singular covariance
is masked as an infinite Mahalanobis distance. -/
theorem C5_numerical_failure_witness :
    compute_2d_collision_probability (0, 0) ⟨-1, 0, 0, -1⟩ 10 = 0 ∧
    compute_mahalanobis_distance (0, 0) ⟨0, 0, 0, 0⟩ = ⊤ := by
  have hreg : regularize2 ⟨-1, 0, 0, -1⟩ = ⟨-1 + 1e-6, 0, 0, -1 + 1e-6⟩ := by
    unfold regularize2 tr2 det2
    rw [if_pos (Or.inl (by norm_num))]
  have hchol : ¬ cholOk (regularize2 ⟨-1, 0, 0, -1⟩) := by
    rw [hreg]
    rintro ⟨h1, _⟩
    norm_num at h1
  have hdet : det2 (⟨0, 0, 0, 0⟩ : Mat2) = 0 := by
    unfold det2
    norm_num
  exact ⟨C5_numerical_failure_masking_amended.1 (0, 0) ⟨-1, 0, 0, -1⟩ 10 (Or.inr hchol),
    C5_numerical_failure_masking_amended.2.1 (0, 0) ⟨0, 0, 0, 0⟩ hdet⟩

/-- C5 counterexample: a supplied all-zero relative covariance makes
`P_2d` exactly singular, so `np.linalg.inv` fails inside the Mahalanobis
diagnostic (recorded as `inf`), yet the analysis result carries no error
marker and its safety level is a threshold level, not `UNKNOWN` — the
claim that every numerical failure surfaces an error marker with safety
level `UNKNOWN` is false on this input. -/
theorem C5_numerical_failure_counterexample :
    det2 (analysisP2d ⟨0, 0, 0⟩ ⟨1, 0, 0⟩ (some Mat3.zeroM)) = 0 ∧
    (compute_collision_probability_analysis ⟨0, 0, 0⟩ ⟨1, 0, 0⟩ "SAT-A" "SAT-B"
      (some Mat3.zeroM)).mahalanobis_distance = some ⊤ ∧
    (compute_collision_probability_analysis ⟨0, 0, 0⟩ ⟨1, 0, 0⟩ "SAT-A" "SAT-B"
      (some Mat3.zeroM)).pc_error = false ∧
    (compute_collision_probability_analysis ⟨0, 0, 0⟩ ⟨1, 0, 0⟩ "SAT-A" "SAT-B"
      (some Mat3.zeroM)).safety_level ≠ Safety.UNKNOWN := by
  have hq : ∀ a b : V3, quad3 Mat3.zeroM a b = 0 := by
    intro a b
    unfold quad3 Mat3.zeroM
    ring
  have hP2 : analysisP2d ⟨0, 0, 0⟩ ⟨1, 0, 0⟩ (some Mat3.zeroM) = ⟨0, 0, 0, 0⟩ := by
    unfold analysisP2d analysisPpos
    simp [hq]
  have hdet : det2 (analysisP2d ⟨0, 0, 0⟩ ⟨1, 0, 0⟩ (some Mat3.zeroM)) = 0 := by
    rw [hP2]
    unfold det2
    norm_num
  have hmah : compute_mahalanobis_distance
      (project_to_encounter_plane ⟨0, 0, 0⟩ (e1Vec ⟨1, 0, 0⟩) (e2Vec ⟨1, 0, 0⟩))
      (analysisP2d ⟨0, 0, 0⟩ ⟨1, 0, 0⟩ (some Mat3.zeroM)) = ⊤ := by
    unfold compute_mahalanobis_distance
    rw [if_pos hdet]
  have hfield : (compute_collision_probability_analysis ⟨0, 0, 0⟩ ⟨1, 0, 0⟩ "SAT-A" "SAT-B"
      (some Mat3.zeroM)).mahalanobis_distance = some (compute_mahalanobis_distance
        (project_to_encounter_plane ⟨0, 0, 0⟩ (e1Vec ⟨1, 0, 0⟩) (e2Vec ⟨1, 0, 0⟩))
        (analysisP2d ⟨0, 0, 0⟩ ⟨1, 0, 0⟩ (some Mat3.zeroM))) := rfl
  have hsafe : (compute_collision_probability_analysis ⟨0, 0, 0⟩ ⟨1, 0, 0⟩ "SAT-A" "SAT-B"
      (some Mat3.zeroM)).safety_level = classifySafety
        (compute_2d_collision_probability
          (project_to_encounter_plane ⟨0, 0, 0⟩ (e1Vec ⟨1, 0, 0⟩) (e2Vec ⟨1, 0, 0⟩))
          (analysisP2d ⟨0, 0, 0⟩ ⟨1, 0, 0⟩ (some Mat3.zeroM))
          (estimate_hard_body_radius "SAT-A" "SAT-B")) := rfl
  refine ⟨hdet, by rw [hfield, hmah], rfl, ?_⟩
  rw [hsafe]
  unfold classifySafety
  split_ifs <;> simp
